import Mathlib

/-!
# KunBox libbox extensions: hot reload and latency probing

A shallow embedding of `reload_ext.go` and `urltest_ext.go`.

* The engine (`box.Box`, its outbound manager, selector groups, the config parser, the
  latency tester and the history storage) is an external library.  Its objects are modelled
  at the interface the extension code uses; the outcome of every fallible engine call is
  supplied by an `Engine` record or by an explicit argument, and every theorem quantifies
  over all of them.
* Go pointers to the engine instance and to the history storage are embedded by value in the
  `BoxService`.  The history storage is also registered in the context handed to `box.New`,
  so the engine holds the same pointer; the model covers the reads and writes the extension
  code makes and assumes the engine writes none of its own during them.  Cancellable
  contexts are shared by the `ctx` and `cancel` fields, so they live in a store indexed by
  identifier.
* Go errors are `Option GoError` (`none` is `nil`).  Log output is not modelled.
* Goroutines, `sync.Mutex` and buffered channels are modelled by step functions over explicit
  program points, one scheduler choice per step.
-/

namespace KunBox

/-! ## Engine objects -/

/-- An egress object registered in the outbound manager.  The Go code tests it for three
method sets at run time: `N.Dialer`, `Now() string` and `SelectOutbound(string) bool`. -/
structure Outbound where
  /-- implements `N.Dialer` -/
  isDialer : Bool
  /-- implements `Now() string` -/
  hasNow : Bool
  /-- implements `SelectOutbound(string) bool` -/
  hasSelectOutbound : Bool
  /-- the name `Now()` reports -/
  selected : String
  /-- the names `SelectOutbound` accepts -/
  members : List String
deriving DecidableEq, Repr

/-- The `Now()` method of a group. -/
def Outbound.Now (o : Outbound) : String := o.selected

/-- The `SelectOutbound(tag)` method of a selector group: a member becomes the current
selection and the call reports `true`; any other name is refused and nothing changes. -/
def Outbound.SelectOutbound (o : Outbound) (tag : String) : Bool × Outbound :=
  if tag ∈ o.members then (true, { o with selected := tag }) else (false, o)

/-- The outbound manager: lookup of an egress object by tag. -/
abbrev OutboundManager := List (String × Outbound)

/-- The lookup `outboundManager.Outbound(tag)`; `none` is `ok = false`. -/
def OutboundManager.Outbound (m : OutboundManager) (tag : String) : Option KunBox.Outbound :=
  m.lookup tag

/-- Replace the object registered under `tag` (a method call that mutated it). -/
def OutboundManager.put (m : OutboundManager) (tag : String) (o : KunBox.Outbound) :
    OutboundManager :=
  m.map fun p => if p.1 = tag then (p.1, o) else p

/-- An engine instance (`*box.Box`). -/
structure Box where
  /-- the manager returned by `Outbound()` -/
  outbounds : OutboundManager
  /-- true once `Start()` has succeeded -/
  started : Bool
  /-- true once `Close()` has been called -/
  closed : Bool
deriving DecidableEq, Repr

/-- One sample of the history storage (`adapter.URLTestHistory`); `Delay` is a `uint16`. -/
structure URLTestHistory where
  Time : Nat
  Delay : Nat
deriving DecidableEq, Repr

/-- The history storage (`*urltest.HistoryStorage`): at most one sample per tag. -/
abbrev HistoryStorage := List (String × URLTestHistory)

/-- The constructor `urltest.NewHistoryStorage()`. -/
def NewHistoryStorage : HistoryStorage := []

/-- The method `StoreURLTestHistory(tag, history)`: the sample of `tag` is replaced. -/
def HistoryStorage.StoreURLTestHistory (s : HistoryStorage) (tag : String)
    (h : URLTestHistory) : HistoryStorage :=
  (tag, h) :: s.filter fun p => p.1 != tag

/-- The method `LoadURLTestHistory(tag)`; `none` is `nil`. -/
def HistoryStorage.LoadURLTestHistory (s : HistoryStorage) (tag : String) :
    Option URLTestHistory :=
  s.lookup tag

/-- The host's platform interface, an object the extension only passes on. -/
structure PlatformInterface where
  id : Nat
  useProcFS : Bool
deriving DecidableEq, Repr

/-- A Go error built by `E.New` or `E.Cause`. -/
structure GoError where
  message : String
  cause : Option String
deriving DecidableEq, Repr

/-- The constructor `E.New(message)`. -/
def E.New (message : String) : GoError := ⟨message, none⟩

/-- The constructor `E.Cause(err, message)`. -/
def E.Cause (err : String) (message : String) : GoError := ⟨message, some err⟩

/-- Outcomes of the fallible engine calls made by a reload, for an options type `O`. -/
structure Engine (O : Type) where
  /-- the call `parseConfig(ctx, configContent)`, `ctx` built from the platform interface -/
  parseConfig : PlatformInterface → String → Except String O
  /-- the call `box.New`: the outbound table of the instance built, or the error -/
  New : PlatformInterface → O → Except String OutboundManager
  /-- the error `Start()` reports on a freshly built instance, if any -/
  Start : Box → Option String
  /-- the error `Close()` reports, if any -/
  Close : Box → Option String
  /-- the lookup `service.FromContext[adapter.ClashServer](ctx)` after a build from the options -/
  clashServer : O → Option Nat

/-! ## Service handle and process-wide state -/

/-- The fields of `BoxService` that the extension reads or writes. -/
structure BoxService where
  /-- identifier of the cancellable context `ctx` -/
  ctx : Option Nat
  /-- identifier of the context that `cancel` cancels -/
  cancel : Option Nat
  /-- the field `instance` -/
  inst : Option Box
  urlTestHistoryStorage : Option HistoryStorage
  clashServer : Option Nat
deriving DecidableEq, Repr

/-- The package-level variables of `reload_ext.go` together with the cancellable contexts
created so far (`scopes[i]` is `true` once context `i` has been cancelled).  The counter is a
Go `int` that grows by one per successful reload; it is kept as an unbounded integer. -/
structure World where
  globalPlatformInterface : Option PlatformInterface
  globalBoxService : Option BoxService
  globalReloadCount : Int
  scopes : List Bool
deriving DecidableEq, Repr

/-- Calling a `context.CancelFunc`. -/
def cancelScope (scopes : List Bool) (i : Nat) : List Bool := scopes.set i true

/-- Embedding of `SetReloadablePlatformInterface`. -/
def SetReloadablePlatformInterface (w : World) (platformInterface : Option PlatformInterface) :
    World :=
  { w with globalPlatformInterface := platformInterface }

/-- Embedding of `SetReloadableBoxService`. -/
def SetReloadableBoxService (w : World) (service : Option BoxService) : World :=
  { w with globalBoxService := service }

/-- Embedding of `ClearReloadableService`. -/
def ClearReloadableService (w : World) : World :=
  { w with globalBoxService := none, globalPlatformInterface := none, globalReloadCount := 0 }

/-- Embedding of `CanReload`. -/
def CanReload (w : World) : Bool :=
  match w.globalBoxService with
  | none => false
  | some svc => w.globalPlatformInterface.isSome && svc.inst.isSome

/-- Embedding of `GetReloadCount`. -/
def GetReloadCount (w : World) : Int := w.globalReloadCount

/-! ## Selector state accessor -/

/-- The fixed list of group names both accessors walk. -/
def selectorTags : List String := ["proxy", "select", "selector", "PROXY"]

/-- The loop of `getSelectedOutboundFromService` over the remaining names. -/
def getSelectedLoop (m : OutboundManager) : List String → String
  | [] => ""
  | tag :: rest =>
    match m.Outbound tag with
    | none => getSelectedLoop m rest
    | some outbound => if outbound.hasNow then outbound.Now else getSelectedLoop m rest

/-- Embedding of `getSelectedOutboundFromService`.  The manager `Outbound()` returns is the
one `box.New` created, never nil, so the `outboundManager == nil` test has no branch here. -/
def getSelectedOutboundFromService (svc : Option BoxService) : String :=
  match svc with
  | none => ""
  | some svc =>
    match svc.inst with
    | none => ""
    | some box => getSelectedLoop box.outbounds selectorTags

/-- The loop of `restoreSelectedOutboundToService` over the remaining names: the manager
after the loop and whether a group accepted the name. -/
def restoreSelectedLoop (m : OutboundManager) (tag : String) :
    List String → OutboundManager × Bool
  | [] => (m, false)
  | selectorTag :: rest =>
    match m.Outbound selectorTag with
    | none => restoreSelectedLoop m tag rest
    | some outbound =>
      if outbound.hasSelectOutbound then
        if (outbound.SelectOutbound tag).1 then
          (m.put selectorTag (outbound.SelectOutbound tag).2, true)
        else restoreSelectedLoop m tag rest
      else restoreSelectedLoop m tag rest

/-- Embedding of `restoreSelectedOutboundToService`: the service after the call and whether
the name was restored (the Go function only logs that bit).  As in the read, the
`outboundManager == nil` test has no branch here. -/
def restoreSelectedOutboundToService (svc : Option BoxService) (tag : String) :
    Option BoxService × Bool :=
  match svc with
  | none => (none, false)
  | some s =>
    match s.inst with
    | none => (some s, false)
    | some box =>
      if tag = "" then (some s, false)
      else
        let r := restoreSelectedLoop box.outbounds tag selectorTags
        (some { s with inst := some { box with outbounds := r.1 } }, r.2)

/-! ## Reload orchestrator -/

/-- The method `Close()` of an engine instance; the error it reports is an `Engine` outcome. -/
def Box.Close (b : Box) : Box := { b with closed := true }

/-- Step 5 of `ReloadConfig`: close the old instance when there is one.  The error reported
by `Close()` is logged and then dropped. -/
def closeOldInstance {O : Type} (e : Engine O) (svc : BoxService) : BoxService :=
  match svc.inst with
  | none => svc
  | some box =>
    let _err := e.Close box
    { svc with inst := some box.Close }

/-- Step 6 of `ReloadConfig`: call `svc.cancel` when it is set. -/
def cancelOldContext (svc : BoxService) (scopes : List Bool) : List Bool :=
  match svc.cancel with
  | none => scopes
  | some c => cancelScope scopes c

/-- Steps 7 and 8 of `ReloadConfig`: the service with the context `ctx` (just created by
`context.WithCancel`) and a fresh history storage installed. -/
def installContext (svc : BoxService) (ctx : Nat) : BoxService :=
  { svc with ctx := some ctx, cancel := some ctx,
             urlTestHistoryStorage := some NewHistoryStorage }

/-- Steps 12 and 13 of `ReloadConfig`: install the started instance and restore the saved
selection when one was saved. -/
def installInstance {O : Type} (e : Engine O) (svc : BoxService) (options : O)
    (newInstance : Box) (preserveSelector : Bool) (selectedOutbound : String) : Option BoxService :=
  let svc := { svc with inst := some newInstance, clashServer := e.clashServer options }
  if preserveSelector && selectedOutbound != "" then
    (restoreSelectedOutboundToService (some svc) selectedOutbound).1
  else some svc

/-- Step 1 of `ReloadConfig`: the selection saved from the old instance. -/
def saveSelection (svc : BoxService) (preserveSelector : Bool) : String :=
  if preserveSelector && svc.inst.isSome then getSelectedOutboundFromService (some svc) else ""

/-- Embedding of `ReloadConfig` as run by one caller from lock to unlock: the error returned
(`none` is success) and the state left behind.  `conntrack.Close()` and
`runtimeDebug.FreeOSMemory()` touch nothing that is modelled. -/
def ReloadConfig {O : Type} (e : Engine O) (w : World) (configContent : String)
    (preserveSelector : Bool) : Option GoError × World :=
  match w.globalBoxService with
  | none => (some (E.New "no BoxService available for reload"), w)
  | some svc =>
    match w.globalPlatformInterface with
    | none => (some (E.New "no PlatformInterface available for reload"), w)
    | some platformInterface =>
      let reloadNum := w.globalReloadCount + 1
      -- 1. Save currently selected node if needed
      let selectedOutbound := saveSelection svc preserveSelector
      -- 3. Parse new config
      match e.parseConfig platformInterface configContent with
      | .error err => (some (E.Cause err "parse config"), w)
      | .ok options =>
        -- 5. Close old box instance
        let svc := closeOldInstance e svc
        -- 6. Cancel old context
        let scopes := cancelOldContext svc w.scopes
        -- 7. Create new context, 8. register urlTestHistoryStorage
        let ctx := scopes.length
        let scopes := scopes ++ [false]
        let svc := installContext svc ctx
        -- 10. Create new box instance
        match e.New platformInterface options with
        | .error err =>
          (some (E.Cause err "create box instance"),
            { w with globalBoxService := some svc, scopes := cancelScope scopes ctx })
        | .ok outbounds =>
          let newInstance : Box := { outbounds := outbounds, started := false, closed := false }
          -- 11. Start new instance
          match e.Start newInstance with
          | some err =>
            -- newInstance.Close() acts on an instance nothing refers to afterwards
            (some (E.Cause err "start box instance"),
              { w with globalBoxService := some svc, scopes := cancelScope scopes ctx })
          | none =>
            let newInstance := { newInstance with started := true }
            -- 12. Update service references, 13. restore selected node
            let svc := installInstance e svc options newInstance preserveSelector selectedOutbound
            -- 14. Update global state
            (none, { w with globalBoxService := svc, globalReloadCount := reloadNum,
                            scopes := scopes })

/-! ## Latency probing -/

/-- The struct `URLTestResult`. -/
structure URLTestResult where
  Tag : String
  /-- milliseconds, `-1` = failed -/
  Delay : Int
  Error : String
deriving DecidableEq, Repr

/-- The URL probed when the caller passes an empty one. -/
def defaultTestURL : String := "https://www.gstatic.com/generate_204"

/-- Embedding of `BoxService.URLTestOutbound`: the delay returned and the service afterwards.
`URLTest url timeoutMs` is the outcome of `urltest.URLTest` through the dialer found (a
`uint16` delay or the cause of the failure) and `now` is `time.Now()`. -/
def URLTestOutbound (s : Option BoxService) (outboundTag url : String) (timeoutMs : Int)
    (URLTest : String → Int → Except String Nat) (now : Nat) : Int × Option BoxService :=
  match s with
  | none => (-1, none)
  | some svc =>
    match svc.inst with
    | none => (-1, some svc)
    | some box =>
      match box.outbounds.Outbound outboundTag with
      | none => (-1, some svc)
      | some outbound =>
        if !outbound.isDialer then (-1, some svc)
        else
          let url := if url = "" then defaultTestURL else url
          match URLTest url timeoutMs with
          | .error _ => (-1, some svc)
          | .ok delay =>
            let delay := delay % 65536
            -- Store result in history for UI display
            let svc :=
              match svc.urlTestHistoryStorage with
              | none => svc
              | some storage =>
                let storage := storage.StoreURLTestHistory outboundTag ⟨now, delay⟩
                { svc with urlTestHistoryStorage := some storage }
            (Int.ofNat delay, some svc)

/-- Embedding of `BoxService.GetURLTestHistory`. -/
def GetURLTestHistory (s : Option BoxService) (outboundTag : String) : Int :=
  match s with
  | none => -1
  | some svc =>
    match svc.urlTestHistoryStorage with
    | none => -1
    | some storage =>
      match storage.LoadURLTestHistory outboundTag with
      | none => -1
      | some history => Int.ofNat (history.Delay % 65536)

/-- The struct `BatchURLTestResult`. -/
structure BatchURLTestResult where
  results : List URLTestResult
deriving DecidableEq, Repr

/-- Embedding of `BatchURLTestResult.Len`. -/
def BatchURLTestResult.Len (r : Option BatchURLTestResult) : Int :=
  match r with
  | none => 0
  | some r => r.results.length

/-- Embedding of `BatchURLTestResult.Get`; `none` is `nil`. -/
def BatchURLTestResult.Get (r : Option BatchURLTestResult) (index : Int) : Option URLTestResult :=
  match r with
  | none => none
  | some r =>
    if index < 0 ∨ index ≥ r.results.length then none else r.results[index.toNat]?

/-- Program points of the calling goroutine of `URLTestBatch`. -/
inductive BatchPc where
  /-- about to run `sem <- struct{}{}` for target `i` of the launch loop -/
  | acquire (i : Nat)
  /-- about to run the `go` statement for target `i` -/
  | spawn (i : Nat)
  /-- about to run `sem <- struct{}{}` of iteration `i` of the final loop -/
  | wait (i : Nat)
  /-- has returned the result -/
  | returned
deriving DecidableEq, Repr

/-- Program points of the goroutine started for one target. -/
inductive ProbePc where
  /-- the `go` statement has not run yet -/
  | idle
  /-- about to call `s.URLTestOutbound` -/
  | call
  /-- the call returned `delay`; about to write `results[idx]` -/
  | store (delay : Int)
  /-- about to run the deferred `<-sem` -/
  | release
  /-- the goroutine has ended -/
  | finished
deriving DecidableEq, Repr

/-- A probe goroutine is in flight from the `go` statement until its deferred receive. -/
def ProbePc.inFlight : ProbePc → Bool
  | .call => true
  | .store _ => true
  | .release => true
  | _ => false

/-- What the network answers to the probe of each target and the clock it reads. -/
structure Network where
  URLTest : Nat → String → Int → Except String Nat
  now : Nat → Nat

/-- State of one running `URLTestBatch` call. -/
structure Batch where
  s : Option BoxService
  tags : List String
  url : String
  timeoutMs : Int
  /-- the capacity of `sem` -/
  concurrency : Nat
  pc : BatchPc
  /-- the number of elements buffered in `sem` -/
  sem : Nat
  results : List URLTestResult
  /-- the program point of the goroutine of each target -/
  probes : List ProbePc
deriving DecidableEq, Repr

/-- A scheduler choice: the caller or the goroutine of target `idx` takes its next step. -/
inductive BatchAction where
  | main
  | probe (idx : Nat)
deriving DecidableEq, Repr

/-- The value of `concurrency` after the `concurrency <= 0` test. -/
def effectiveConcurrency (concurrency : Int) : Int :=
  if concurrency ≤ 0 then 10 else concurrency

/-- The part of `URLTestBatch` before the launch loop.  `tags` is the value of
`ParseTags(outboundTags)`.  `none` is the early `return nil`; otherwise the state in which
the launch loop is entered. -/
def URLTestBatch.start (s : Option BoxService) (tags : List String) (url : String)
    (timeoutMs : Int) (concurrency : Int) : Option Batch :=
  match s with
  | none => none
  | some svc =>
    if svc.inst.isNone then none
    else if tags.length = 0 then none
    else
      some { s := some svc, tags := tags, url := url, timeoutMs := timeoutMs,
             concurrency := (effectiveConcurrency concurrency).toNat,
             pc := .acquire 0, sem := 0,
             results := List.replicate tags.length ⟨"", 0, ""⟩,
             probes := List.replicate tags.length .idle }

/-- One step of the caller.  A send on `sem` is enabled only while the buffer is not full. -/
def Batch.stepMain (b : Batch) : Option Batch :=
  match b.pc with
  | .acquire i =>
    if b.sem < b.concurrency then some { b with sem := b.sem + 1, pc := .spawn i } else none
  | .spawn i =>
    some { b with probes := b.probes.set i .call,
                  pc := if i + 1 < b.tags.length then .acquire (i + 1) else .wait 0 }
  | .wait i =>
    if b.sem < b.concurrency then
      some { b with sem := b.sem + 1,
                    pc := if i + 1 < b.concurrency then .wait (i + 1) else .returned }
    else none
  | .returned => none

/-- One step of the goroutine of target `idx`. -/
def Batch.stepProbe (net : Network) (b : Batch) (idx : Nat) : Option Batch :=
  match b.probes[idx]?, b.tags[idx]? with
  | some .call, some outboundTag =>
    let r := URLTestOutbound b.s outboundTag b.url b.timeoutMs (net.URLTest idx) (net.now idx)
    some { b with s := r.2, probes := b.probes.set idx (.store r.1) }
  | some (.store delay), some outboundTag =>
    some { b with results := b.results.set idx { Tag := outboundTag, Delay := delay, Error := "" },
                  probes := b.probes.set idx .release }
  | some .release, _ =>
    if 0 < b.sem then some { b with sem := b.sem - 1, probes := b.probes.set idx .finished }
    else none
  | _, _ => none

/-- One step of a running call; `none` when the chosen goroutine cannot move. -/
def Batch.step (net : Network) (b : Batch) : BatchAction → Option Batch
  | .main => b.stepMain
  | .probe idx => b.stepProbe net idx

/-- Run a schedule from a state. -/
def Batch.run (net : Network) (b : Batch) : List BatchAction → Option Batch
  | [] => some b
  | a :: rest =>
    match b.step net a with
    | none => none
    | some b' => Batch.run net b' rest

/-- The number of probes that have started and not yet finished. -/
def Batch.inFlight (b : Batch) : Nat := b.probes.countP ProbePc.inFlight

/-- Embedding of `BoxService.URLTestBatch` under a schedule of its goroutines.  The outer
`none` means the schedule does not take the call to its return; otherwise the pointer
returned (`none` is `nil`) and the service afterwards. -/
def URLTestBatch (net : Network) (s : Option BoxService) (tags : List String) (url : String)
    (timeoutMs : Int) (concurrency : Int) (schedule : List BatchAction) :
    Option (Option BatchURLTestResult × Option BoxService) :=
  match URLTestBatch.start s tags url timeoutMs concurrency with
  | none => some (none, s)
  | some b =>
    match b.run net schedule with
    | none => none
    | some b' =>
      if b'.pc = .returned then some (some { results := b'.results }, b'.s) else none

/-! ## Concurrent callers of `ReloadConfig` -/

/-- Program points of one caller of `ReloadConfig`, with the locals that are live there. -/
inductive ReloadPc (O : Type) where
  /-- about to call `reloadMutex.Lock()` -/
  | entry
  /-- holds the lock; about to read the globals, save the selection and parse (steps 1 to 3) -/
  | locked
  /-- the config parsed; about to retire the old instance and context (steps 4 to 9) -/
  | parsed (platformInterface : PlatformInterface) (reloadNum : Int)
      (selectedOutbound : String) (options : O)
  /-- the context `ctx` installed; about to call `box.New` (step 10) -/
  | retired (platformInterface : PlatformInterface) (reloadNum : Int)
      (selectedOutbound : String) (options : O) (ctx : Nat)
  /-- the instance built; about to call `Start()` (step 11) -/
  | created (reloadNum : Int) (selectedOutbound : String) (options : O) (ctx : Nat)
      (newInstance : Box)
  /-- the instance started; about to install it (steps 12 to 14) -/
  | started (reloadNum : Int) (selectedOutbound : String) (options : O) (newInstance : Box)
  /-- a `return` statement has run; the deferred `reloadMutex.Unlock()` is pending -/
  | unlocking (err : Option GoError)
  /-- the call has returned `err` -/
  | returned (err : Option GoError)

/-- The program points between `Lock()` and the deferred `Unlock()`. -/
def ReloadPc.holdsLock {O : Type} : ReloadPc O → Bool
  | .entry => false
  | .returned _ => false
  | _ => true

/-- One call of `ReloadConfig` in progress. -/
structure Caller (O : Type) where
  configContent : String
  preserveSelector : Bool
  pc : ReloadPc O

/-- One step of a caller between `Lock()` and the deferred `Unlock()`: the next program
point and the state it leaves.  The service is read through the pointer taken at `locked`,
which is the registered service. -/
def Caller.advance {O : Type} (e : Engine O) (c : Caller O) (w : World) :
    Option (ReloadPc O × World) :=
  match c.pc with
  | .locked =>
    match w.globalBoxService with
    | none => some (.unlocking (some (E.New "no BoxService available for reload")), w)
    | some svc =>
      match w.globalPlatformInterface with
      | none => some (.unlocking (some (E.New "no PlatformInterface available for reload")), w)
      | some platformInterface =>
        let reloadNum := w.globalReloadCount + 1
        let selectedOutbound := saveSelection svc c.preserveSelector
        match e.parseConfig platformInterface c.configContent with
        | .error err => some (.unlocking (some (E.Cause err "parse config")), w)
        | .ok options => some (.parsed platformInterface reloadNum selectedOutbound options, w)
  | .parsed platformInterface reloadNum selectedOutbound options =>
    match w.globalBoxService with
    | none => none
    | some svc =>
      let svc := closeOldInstance e svc
      let scopes := cancelOldContext svc w.scopes
      let ctx := scopes.length
      some (.retired platformInterface reloadNum selectedOutbound options ctx,
        { w with globalBoxService := some (installContext svc ctx), scopes := scopes ++ [false] })
  | .retired platformInterface reloadNum selectedOutbound options ctx =>
    match e.New platformInterface options with
    | .error err =>
      some (.unlocking (some (E.Cause err "create box instance")),
        { w with scopes := cancelScope w.scopes ctx })
    | .ok outbounds =>
      some (.created reloadNum selectedOutbound options ctx
        { outbounds := outbounds, started := false, closed := false }, w)
  | .created reloadNum selectedOutbound options ctx newInstance =>
    match e.Start newInstance with
    | some err =>
      some (.unlocking (some (E.Cause err "start box instance")),
        { w with scopes := cancelScope w.scopes ctx })
    | none =>
      some (.started reloadNum selectedOutbound options { newInstance with started := true }, w)
  | .started reloadNum selectedOutbound options newInstance =>
    match w.globalBoxService with
    | none => none
    | some svc =>
      some (.unlocking none,
        { w with globalBoxService :=
                   installInstance e svc options newInstance c.preserveSelector selectedOutbound,
                 globalReloadCount := reloadNum })
  | _ => none

/-- The process while any number of goroutines call `ReloadConfig`. -/
structure Reloads (O : Type) where
  w : World
  /-- true while `reloadMutex` is locked -/
  reloadMutex : Bool
  callers : List (Caller O)

/-- The state in which every call is about to start and the lock is free. -/
def Reloads.init {O : Type} (w : World) (calls : List (String × Bool)) : Reloads O :=
  { w := w, reloadMutex := false,
    callers := calls.map fun a => { configContent := a.1, preserveSelector := a.2, pc := .entry } }

/-- Caller `i` takes its next step; `none` when it cannot move.  `Lock()` is enabled only
while the mutex is free. -/
def Reloads.step {O : Type} (e : Engine O) (sys : Reloads O) (i : Nat) : Option (Reloads O) :=
  match sys.callers[i]? with
  | none => none
  | some c =>
    match c.pc with
    | .entry =>
      if sys.reloadMutex then none
      else
        some { sys with reloadMutex := true,
                        callers := sys.callers.set i { c with pc := .locked } }
    | .unlocking err =>
      some { sys with reloadMutex := false,
                      callers := sys.callers.set i { c with pc := .returned err } }
    | .returned _ => none
    | _ =>
      match c.advance e sys.w with
      | none => none
      | some r => some { sys with w := r.2, callers := sys.callers.set i { c with pc := r.1 } }

/-- Run a schedule of caller indices. -/
def Reloads.run {O : Type} (e : Engine O) (sys : Reloads O) : List Nat → Option (Reloads O)
  | [] => some sys
  | i :: rest =>
    match sys.step e i with
    | none => none
    | some sys' => Reloads.run e sys' rest

/-! ## Resolution of the selector group (specification side) -/

/-- The group a read resolves to: the first name of the list that is registered and
implements `Now()`. -/
def readGroup (m : OutboundManager) : List String → Option String
  | [] => none
  | tag :: rest =>
    match m.Outbound tag with
    | none => readGroup m rest
    | some outbound => if outbound.hasNow then some tag else readGroup m rest

/-- The group a write of `tag` resolves to: the first name of the list that is registered,
implements `SelectOutbound` and accepts `tag`. -/
def writeGroup (m : OutboundManager) (tag : String) : List String → Option String
  | [] => none
  | selectorTag :: rest =>
    match m.Outbound selectorTag with
    | none => writeGroup m tag rest
    | some outbound =>
      if outbound.hasSelectOutbound && decide (tag ∈ outbound.members) then some selectorTag
      else writeGroup m tag rest

/-! ## Invariant of concurrent reloads (specification side) -/

/-- The program points from which the caller still reads or writes the service. -/
def ReloadPc.usesService {O : Type} : ReloadPc O → Bool
  | .parsed _ _ _ _ => true
  | .retired _ _ _ _ _ => true
  | .created _ _ _ _ _ => true
  | .started _ _ _ _ => true
  | _ => false

/-- An upper bound on the steps a caller still takes before it has returned. -/
def ReloadPc.stepsLeft {O : Type} : ReloadPc O → Nat
  | .entry => 0
  | .locked => 6
  | .parsed _ _ _ _ => 5
  | .retired _ _ _ _ _ => 4
  | .created _ _ _ _ _ => 3
  | .started _ _ _ _ => 2
  | .unlocking _ => 1
  | .returned _ => 0

/-- What holds in every state of a process whose goroutines call `ReloadConfig`: at most one
caller is between `Lock()` and the deferred `Unlock()`, the mutex is locked exactly while
there is one, and the service the holder works on is registered. -/
structure Reloads.Inv {O : Type} (sys : Reloads O) : Prop where
  exclusive : ∀ (i j : Nat) (ci cj : Caller O), sys.callers[i]? = some ci → sys.callers[j]? = some cj →
    ci.pc.holdsLock = true → cj.pc.holdsLock = true → i = j
  locked_iff : sys.reloadMutex = true ↔
    ∃ (i : Nat) (c : Caller O), sys.callers[i]? = some c ∧ c.pc.holdsLock = true
  service_set : ∀ (i : Nat) (c : Caller O), sys.callers[i]? = some c →
    c.pc.usesService = true →
    sys.w.globalBoxService.isSome = true

/-! ## Scenarios on which the model is evaluated -/

/-- A plain egress path. -/
def plainOutbound : Outbound :=
  { isDialer := true, hasNow := false, hasSelectOutbound := false, selected := "", members := [] }

/-- A selector group. -/
def selectorGroup (selected : String) (members : List String) : Outbound :=
  { isDialer := true, hasNow := true, hasSelectOutbound := true, selected := selected,
    members := members }

/-- A running instance whose group `proxy` has `node-A` selected. -/
def demoBox : Box :=
  { outbounds := [("proxy", selectorGroup "node-A" ["node-A", "node-B"]),
                  ("node-A", plainOutbound), ("node-B", plainOutbound)],
    started := true, closed := false }

/-- A service handle around `demoBox` with one sample in its history. -/
def demoService : BoxService :=
  { ctx := some 0, cancel := some 0, inst := some demoBox,
    urlTestHistoryStorage := some [("node-A", ⟨7, 120⟩)], clashServer := none }

/-- A platform interface. -/
def demoPlatform : PlatformInterface := { id := 1, useProcFS := false }

/-- The process state after `demoService` was registered. -/
def demoWorld : World :=
  { globalPlatformInterface := some demoPlatform, globalBoxService := some demoService,
    globalReloadCount := 2, scopes := [false] }

/-- The configurations the demo engine tells apart. -/
inductive DemoOptions where
  /-- the group `proxy` with members `node-A`, `node-B`, default `node-B` -/
  | sameGroup
  /-- the same egress paths, the group named `GLOBAL` -/
  | renamedGroup
  /-- a configuration `box.New` rejects -/
  | unbuildable
  /-- a configuration whose instance fails to start -/
  | unstartable
deriving DecidableEq, Repr

/-- An engine: a lone opening brace does not parse, the other texts select a `DemoOptions`. -/
def demoEngine : Engine DemoOptions where
  parseConfig := fun _ configContent =>
    if configContent = "\x7b" then .error "unexpected end of input"
    else if configContent = "renamed" then .ok .renamedGroup
    else if configContent = "unbuildable" then .ok .unbuildable
    else if configContent = "unstartable" then .ok .unstartable
    else .ok .sameGroup
  New := fun _ options =>
    match options with
    | .sameGroup =>
      .ok [("proxy", selectorGroup "node-B" ["node-A", "node-B"]),
           ("node-A", plainOutbound), ("node-B", plainOutbound)]
    | .renamedGroup =>
      .ok [("GLOBAL", selectorGroup "node-B" ["node-A", "node-B"]),
           ("node-A", plainOutbound), ("node-B", plainOutbound)]
    | .unbuildable => .error "missing outbound"
    | .unstartable => .ok []
  Start := fun box => if box.outbounds.isEmpty then some "listen: address in use" else none
  Close := fun _ => some "close: already closed"
  clashServer := fun _ => none

/-! ## Invariant of a running `URLTestBatch` call (specification side) -/

/-- The elements the caller has sent on `sem` that no running goroutine will receive. -/
def BatchPc.held (c : Nat) : BatchPc → Nat
  | .acquire _ => 0
  | .spawn _ => 1
  | .wait i => i
  | .returned => c

/-- The number of targets whose `go` statement has run, out of `n`. -/
def BatchPc.launched (n : Nat) : BatchPc → Nat
  | .acquire i => i
  | .spawn i => i
  | .wait _ => n
  | .returned => n

/-- The loop counters stay inside their loops. -/
def BatchPc.valid (n c : Nat) : BatchPc → Prop
  | .acquire i => i < n
  | .spawn i => i < n
  | .wait i => i < c
  | .returned => True

/-- The delay `URLTestOutbound` returns for target `k` on service `s`. -/
def probeDelay (net : Network) (s : Option BoxService) (tags : List String) (url : String)
    (timeoutMs : Int) (k : Nat) : Int :=
  (URLTestOutbound s (tags.getD k "") url timeoutMs (net.URLTest k) (net.now k)).1

/-- The entry `URLTestBatch` is to report for target `k`. -/
def expectedResult (net : Network) (s : Option BoxService) (tags : List String) (url : String)
    (timeoutMs : Int) (k : Nat) : URLTestResult :=
  { Tag := tags.getD k "", Delay := probeDelay net s tags url timeoutMs k, Error := "" }

/-- What holds in every state of a `URLTestBatch` call started on service `s0`. -/
structure Batch.Inv (net : Network) (s0 : Option BoxService) (b : Batch) : Prop where
  conc_pos : 0 < b.concurrency
  probes_len : b.probes.length = b.tags.length
  results_len : b.results.length = b.tags.length
  pc_valid : b.pc.valid b.tags.length b.concurrency
  sem_eq : b.sem = b.inFlight + b.pc.held b.concurrency
  sem_le : b.sem ≤ b.concurrency
  idle_iff : ∀ k, k < b.tags.length →
    (b.probes[k]? = some .idle ↔ b.pc.launched b.tags.length ≤ k)
  svc_inst : (b.s.map fun svc => svc.inst) = s0.map fun svc => svc.inst
  stored : ∀ k d, b.probes[k]? = some (.store d) →
    d = probeDelay net s0 b.tags b.url b.timeoutMs k
  written : ∀ k, b.probes[k]? = some .release ∨ b.probes[k]? = some .finished →
    b.results[k]? = some (expectedResult net s0 b.tags b.url b.timeoutMs k)

/-- The steps a probe goroutine still has to take. -/
def ProbePc.remaining : ProbePc → Nat
  | .idle => 3
  | .call => 3
  | .store _ => 2
  | .release => 1
  | .finished => 0

/-- The steps the caller still has to take, for `n` targets and capacity `c`. -/
def BatchPc.remaining (n c : Nat) : BatchPc → Nat
  | .acquire i => 2 * (n - i) + c
  | .spawn i => 2 * (n - i) - 1 + c
  | .wait i => c - i
  | .returned => 0

/-- The number of steps left until the call has returned and every goroutine has ended. -/
def Batch.remaining (b : Batch) : Nat :=
  b.pc.remaining b.tags.length b.concurrency + (b.probes.map ProbePc.remaining).sum

/-- A network on which the probe of the target at index 1 times out and the probe of the
target at index `idx` otherwise takes `40 + idx` ms. -/
def demoNetwork : Network :=
  { URLTest := fun idx _ _ => if idx = 1 then .error "context deadline exceeded" else .ok (40 + idx),
    now := fun idx => 100 + idx }

/-- The demo service after its instance was lost. -/
def stoppedService : BoxService := { demoService with inst := none }

/-- A schedule for three targets and one slot: each probe runs to its end before the caller
moves on. -/
def demoSchedule : List BatchAction :=
  [.main, .main, .probe 0, .probe 0, .probe 0,
   .main, .main, .probe 1, .probe 1, .probe 1,
   .main, .main, .probe 2, .probe 2, .probe 2, .main]

/-- A group that reports a current member and takes no selection from outside: it has
`Now()` and lacks `SelectOutbound`. -/
def automaticGroup (selected : String) (members : List String) : Outbound :=
  { isDialer := true, hasNow := true, hasSelectOutbound := false, selected := selected,
    members := members }

/-- A service whose instance has an automatic group `proxy` and a selector group `select`. -/
def mixedService : BoxService :=
  { demoService with inst := some { outbounds := [("proxy", automaticGroup "node-A" ["node-A", "node-B"]), ("select", selectorGroup "node-A" ["node-A", "node-B"]), ("node-A", plainOutbound), ("node-B", plainOutbound)], started := true, closed := false } }

/-- A service whose instance has two selector groups, `proxy` over `node-A`, `node-B` and
`select` over `node-C`, `node-D`. -/
def twoGroupService : BoxService :=
  { demoService with inst := some { outbounds := [("proxy", selectorGroup "node-A" ["node-A", "node-B"]), ("select", selectorGroup "node-C" ["node-C", "node-D"]), ("node-A", plainOutbound), ("node-B", plainOutbound), ("node-C", plainOutbound), ("node-D", plainOutbound)], started := true, closed := false } }

/-- The lookup of `tag` in the instance of a service. -/
def lookupOutbound (svc : Option BoxService) (tag : String) : Option Outbound :=
  match svc with
  | none => none
  | some s =>
    match s.inst with
    | none => none
    | some box => box.outbounds.Outbound tag

end KunBox

/-! # Theorems -/

namespace KunBox

/-- C1: when `parseConfig` fails on a registered service, `ReloadConfig` returns the
`parse config` failure and leaves the whole state as it was, for either value of
`preserveSelector`: the instance (not closed), `ctx` and `cancel` (not cancelled), the history
storage and the reload count are unchanged. -/
theorem ReloadConfig_parse_failure_keeps_state {O : Type} (e : Engine O) (w : World)
    (configContent : String) (preserveSelector : Bool) (svc : BoxService)
    (platformInterface : PlatformInterface) (err : String)
    (hsvc : w.globalBoxService = some svc)
    (hpi : w.globalPlatformInterface = some platformInterface)
    (hparse : e.parseConfig platformInterface configContent = .error err) :
    ReloadConfig e w configContent preserveSelector = (some (E.Cause err "parse config"), w) := by
  simp [ReloadConfig, hsvc, hpi, hparse]

/-- Witness of C1 on the demo state with a lone opening brace as configuration. -/
theorem ReloadConfig_parse_failure_keeps_state_witness :
    ReloadConfig demoEngine demoWorld "\x7b" true
      = (some (E.Cause "unexpected end of input" "parse config"), demoWorld) :=
  ReloadConfig_parse_failure_keeps_state demoEngine demoWorld "\x7b" true demoService
    demoPlatform "unexpected end of input" rfl rfl rfl

/-! ## Reload: lemmas on the retire steps -/

theorem cancelOldContext_length (svc : BoxService) (scopes : List Bool) :
    (cancelOldContext svc scopes).length = scopes.length := by
  unfold cancelOldContext cancelScope
  cases svc.cancel <;> simp

theorem cancelScope_new (scopes : List Bool) :
    (cancelScope (scopes ++ [false]) scopes.length)[scopes.length]? = some true := by
  simp [cancelScope]

theorem closeOldInstance_inst {O : Type} (e : Engine O) (svc : BoxService) :
    (closeOldInstance e svc).inst = svc.inst.map Box.Close := by
  unfold closeOldInstance
  split <;> simp_all

theorem closeOldInstance_cancel {O : Type} (e : Engine O) (svc : BoxService) :
    (closeOldInstance e svc).cancel = svc.cancel := by
  unfold closeOldInstance
  split <;> simp_all

/-- The error `ReloadConfig` returns on a registered service is decided by the outcomes of
`parseConfig`, `box.New` and `Start()` alone. -/
theorem ReloadConfig_verdict {O : Type} (e : Engine O) (w : World)
    (configContent : String) (preserveSelector : Bool) (svc : BoxService)
    (platformInterface : PlatformInterface)
    (hsvc : w.globalBoxService = some svc)
    (hpi : w.globalPlatformInterface = some platformInterface) :
    (ReloadConfig e w configContent preserveSelector).1 =
      match e.parseConfig platformInterface configContent with
      | .error err => some (E.Cause err "parse config")
      | .ok options =>
        match e.New platformInterface options with
        | .error err => some (E.Cause err "create box instance")
        | .ok outbounds =>
          match e.Start { outbounds := outbounds, started := false, closed := false } with
          | some err => some (E.Cause err "start box instance")
          | none => none := by
  simp only [ReloadConfig, hsvc, hpi]
  cases e.parseConfig platformInterface configContent with
  | error err => rfl
  | ok options =>
    simp only []
    cases e.New platformInterface options with
    | error err => rfl
    | ok outbounds =>
      simp only []
      cases e.Start { outbounds := outbounds, started := false, closed := false } <;> rfl

/-- C2, refuted as stated: after `box.New` fails on the demo state the service still refers
to the old instance, now closed, and `CanReload` still answers `true`. -/
theorem ReloadConfig_build_failure_instance_not_nil :
    demoEngine.parseConfig demoPlatform "unbuildable" = .ok .unbuildable ∧
    demoEngine.New demoPlatform .unbuildable = .error "missing outbound" ∧
    ((ReloadConfig demoEngine demoWorld "unbuildable" false).2.globalBoxService.bind
        fun svc => svc.inst) = some demoBox.Close ∧
    CanReload (ReloadConfig demoEngine demoWorld "unbuildable" false).2 = true :=
  ⟨rfl, rfl, by decide, by decide⟩

/-- C2, as amended: when the configuration parses and `box.New` or `Start()` fails, the call
returns the `create box instance` or `start box instance` failure and the new instance is not
installed; the service keeps the reference it had, to the old instance, which has been closed
(absent only if it was absent before); `ctx` and `cancel` are the new context, already
cancelled; the history storage is a fresh empty one; the reload count and the answer of
`CanReload` are what they were before the call. -/
theorem ReloadConfig_build_failure_keeps_closed_old {O : Type} (e : Engine O) (w : World)
    (configContent : String) (preserveSelector : Bool) (svc : BoxService)
    (platformInterface : PlatformInterface) (options : O)
    (hsvc : w.globalBoxService = some svc)
    (hpi : w.globalPlatformInterface = some platformInterface)
    (hparse : e.parseConfig platformInterface configContent = .ok options)
    (hfail : (∃ err, e.New platformInterface options = .error err) ∨
      (∃ outbounds err, e.New platformInterface options = .ok outbounds ∧
        e.Start { outbounds := outbounds, started := false, closed := false } = some err)) :
    ∃ err svc',
      ((ReloadConfig e w configContent preserveSelector).1
          = some (E.Cause err "create box instance") ∨
        (ReloadConfig e w configContent preserveSelector).1
          = some (E.Cause err "start box instance")) ∧
      (ReloadConfig e w configContent preserveSelector).2.globalBoxService = some svc' ∧
      svc'.inst = svc.inst.map Box.Close ∧
      svc'.ctx = some w.scopes.length ∧ svc'.cancel = some w.scopes.length ∧
      (ReloadConfig e w configContent preserveSelector).2.scopes[w.scopes.length]? = some true ∧
      svc'.urlTestHistoryStorage = some NewHistoryStorage ∧
      (ReloadConfig e w configContent preserveSelector).2.globalReloadCount
        = w.globalReloadCount ∧
      CanReload (ReloadConfig e w configContent preserveSelector).2 = CanReload w := by
  have hlen := cancelOldContext_length (closeOldInstance e svc) w.scopes
  have hnew := cancelScope_new (cancelOldContext (closeOldInstance e svc) w.scopes)
  rw [hlen] at hnew
  rcases hfail with ⟨err, hN⟩ | ⟨outbounds, err, hN, hS⟩
  · refine ⟨err, installContext (closeOldInstance e svc) w.scopes.length, ?_⟩
    simp [ReloadConfig, hsvc, hpi, hparse, hN, hlen, hnew, installContext, CanReload,
      closeOldInstance_inst]
  · refine ⟨err, installContext (closeOldInstance e svc) w.scopes.length, ?_⟩
    simp [ReloadConfig, hsvc, hpi, hparse, hN, hS, hlen, hnew, installContext, CanReload,
      closeOldInstance_inst]

/-- Witness of the amended C2 on the demo state with a configuration whose instance fails
to start. -/
theorem ReloadConfig_build_failure_keeps_closed_old_witness :
    ∃ err svc',
      ((ReloadConfig demoEngine demoWorld "unstartable" true).1
          = some (E.Cause err "create box instance") ∨
        (ReloadConfig demoEngine demoWorld "unstartable" true).1
          = some (E.Cause err "start box instance")) ∧
      (ReloadConfig demoEngine demoWorld "unstartable" true).2.globalBoxService = some svc' ∧
      svc'.inst = demoService.inst.map Box.Close ∧
      svc'.ctx = some demoWorld.scopes.length ∧ svc'.cancel = some demoWorld.scopes.length ∧
      (ReloadConfig demoEngine demoWorld "unstartable" true).2.scopes[demoWorld.scopes.length]?
        = some true ∧
      svc'.urlTestHistoryStorage = some NewHistoryStorage ∧
      (ReloadConfig demoEngine demoWorld "unstartable" true).2.globalReloadCount
        = demoWorld.globalReloadCount ∧
      CanReload (ReloadConfig demoEngine demoWorld "unstartable" true).2 = CanReload demoWorld :=
  ReloadConfig_build_failure_keeps_closed_old demoEngine demoWorld "unstartable" true
    demoService demoPlatform .unstartable rfl rfl rfl
    (Or.inr ⟨[], "listen: address in use", rfl, by decide⟩)

/-- C7: on a registered service `ReloadConfig` returns success exactly when `parseConfig`,
`box.New` and `Start()` all succeed, and the value returned is the same for every outcome of
closing the old instance, every old instance and every choice of `preserveSelector`, hence
whether or not the saved selection can be restored. -/
theorem ReloadConfig_success_iff {O : Type} (e : Engine O) (w : World)
    (configContent : String) (preserveSelector : Bool) (svc : BoxService)
    (platformInterface : PlatformInterface)
    (hsvc : w.globalBoxService = some svc)
    (hpi : w.globalPlatformInterface = some platformInterface) :
    ((ReloadConfig e w configContent preserveSelector).1 = none ↔
      ∃ options outbounds,
        e.parseConfig platformInterface configContent = .ok options ∧
        e.New platformInterface options = .ok outbounds ∧
        e.Start { outbounds := outbounds, started := false, closed := false } = none) ∧
    ∀ (e' : Engine O) (w' : World) (preserveSelector' : Bool) (svc' : BoxService),
      w'.globalBoxService = some svc' →
      w'.globalPlatformInterface = some platformInterface →
      e'.parseConfig = e.parseConfig → e'.New = e.New → e'.Start = e.Start →
      (ReloadConfig e' w' configContent preserveSelector').1
        = (ReloadConfig e w configContent preserveSelector).1 := by
  constructor
  · rw [ReloadConfig_verdict e w configContent preserveSelector svc platformInterface hsvc hpi]
    cases hp : e.parseConfig platformInterface configContent with
    | error err => simp
    | ok options =>
      cases hn : e.New platformInterface options with
      | error err => simp [hn]
      | ok outbounds =>
        cases hs : e.Start { outbounds := outbounds, started := false, closed := false } <;>
          simp [hn, hs]
  · intro e' w' preserveSelector' svc' hsvc' hpi' h1 h2 h3
    rw [ReloadConfig_verdict e w configContent preserveSelector svc platformInterface hsvc hpi,
      ReloadConfig_verdict e' w' configContent preserveSelector' svc' platformInterface
        hsvc' hpi', h1, h2, h3]

/-! ## Selector state accessor: lemmas -/

theorem Outbound_put_self (m : OutboundManager) (g : String) (o o' : Outbound)
    (h : m.Outbound g = some o) : (m.put g o').Outbound g = some o' := by
  induction m with
  | nil => simp [OutboundManager.Outbound] at h
  | cons p m ih =>
    obtain ⟨k, v⟩ := p
    simp only [OutboundManager.Outbound, OutboundManager.put, List.map_cons, List.lookup_cons]
      at h ih ⊢
    by_cases hk : k = g
    · subst hk; simp
    · have hg : (g == k) = false := by simpa using fun h' => hk h'.symm
      simp only [hg] at h
      simp [hk, hg, ih h, List.lookup_cons]

theorem Outbound_put_ne (m : OutboundManager) (g t : String) (o' : Outbound) (h : t ≠ g) :
    (m.put g o').Outbound t = m.Outbound t := by
  induction m with
  | nil => rfl
  | cons p m ih =>
    obtain ⟨k, v⟩ := p
    simp only [OutboundManager.Outbound, OutboundManager.put, List.map_cons, List.lookup_cons]
      at ih ⊢
    by_cases hk : k = g
    · subst hk
      have : (t == k) = false := by simpa using h
      simp [this, ih, List.lookup_cons]
    · simp [hk, ih, List.lookup_cons]

theorem getSelectedLoop_eq (m : OutboundManager) (l : List String) :
    getSelectedLoop m l =
      match readGroup m l with
      | none => ""
      | some g =>
        match m.Outbound g with
        | none => ""
        | some o => o.Now := by
  induction l with
  | nil => rfl
  | cons t rest ih =>
    unfold getSelectedLoop readGroup
    cases h : m.Outbound t with
    | none => simpa using ih
    | some o =>
      by_cases hn : o.hasNow = true
      · simp [hn, h]
      · simpa [hn] using ih

theorem restoreSelectedLoop_eq (m : OutboundManager) (tag : String) (l : List String) :
    restoreSelectedLoop m tag l =
      match writeGroup m tag l with
      | none => (m, false)
      | some g =>
        match m.Outbound g with
        | none => (m, false)
        | some o => (m.put g (o.SelectOutbound tag).2, true) := by
  induction l with
  | nil => rfl
  | cons t rest ih =>
    unfold restoreSelectedLoop writeGroup
    cases h : m.Outbound t with
    | none => simpa using ih
    | some o =>
      by_cases hs : o.hasSelectOutbound = true
      · by_cases hm : tag ∈ o.members
        · simp [hs, hm, h, Outbound.SelectOutbound]
        · simpa [hs, hm, Outbound.SelectOutbound] using ih
      · simpa [hs] using ih

theorem readGroup_some (m : OutboundManager) (l : List String) (g : String)
    (h : readGroup m l = some g) : ∃ o, m.Outbound g = some o ∧ o.hasNow = true := by
  induction l with
  | nil => simp [readGroup] at h
  | cons t rest ih =>
    unfold readGroup at h
    cases ht : m.Outbound t with
    | none => rw [ht] at h; exact ih h
    | some o =>
      rw [ht] at h
      by_cases hn : o.hasNow = true
      · simp [hn] at h; subst h; exact ⟨o, ht, hn⟩
      · simp [hn] at h; exact ih h

theorem writeGroup_some (m : OutboundManager) (tag : String) (l : List String) (g : String)
    (h : writeGroup m tag l = some g) :
    ∃ o, m.Outbound g = some o ∧ o.hasSelectOutbound = true ∧ tag ∈ o.members := by
  induction l with
  | nil => simp [writeGroup] at h
  | cons t rest ih =>
    unfold writeGroup at h
    cases ht : m.Outbound t with
    | none => rw [ht] at h; exact ih h
    | some o =>
      rw [ht] at h
      by_cases hs : (o.hasSelectOutbound && decide (tag ∈ o.members)) = true
      · simp only [hs, if_true, Option.some.injEq] at h
        subst h
        simp at hs
        exact ⟨o, ht, hs.1, hs.2⟩
      · simp only [hs] at h; exact ih h

theorem readGroup_put (m : OutboundManager) (g : String) (o o' : Outbound) (l : List String)
    (h : m.Outbound g = some o) (hn : o'.hasNow = o.hasNow) :
    readGroup (m.put g o') l = readGroup m l := by
  induction l with
  | nil => rfl
  | cons t rest ih =>
    unfold readGroup
    by_cases ht : t = g
    · subst ht
      rw [Outbound_put_self m t o o' h, h]
      simp [hn, ih]
    · rw [Outbound_put_ne m g t o' ht, ih]

/-- Reading after a restore that resolved to the group the read resolves to. -/
theorem getSelectedLoop_restore (m : OutboundManager) (tag g : String) (l : List String)
    (hr : readGroup m l = some g) (hw : writeGroup m tag l = some g) :
    getSelectedLoop (restoreSelectedLoop m tag l).1 l = tag := by
  obtain ⟨o, ho, hs, hm⟩ := writeGroup_some m tag l g hw
  simp only [restoreSelectedLoop_eq, hw, ho]
  have hNow : (o.SelectOutbound tag).2.hasNow = o.hasNow := by
    simp [Outbound.SelectOutbound, hm]
  rw [getSelectedLoop_eq, readGroup_put m g o _ l ho hNow, hr]
  simp only []
  rw [Outbound_put_self m g o _ ho]
  simp [Outbound.SelectOutbound, hm, Outbound.Now]

theorem saveSelection_true (svc : BoxService) :
    saveSelection svc true = getSelectedOutboundFromService (some svc) := by
  cases h : svc.inst <;> simp [saveSelection, getSelectedOutboundFromService, h]

/-- The state a successful reload with `preserveSelector = true` leaves behind. -/
theorem ReloadConfig_success_state {O : Type} (e : Engine O) (w : World)
    (configContent : String) (svc : BoxService)
    (platformInterface : PlatformInterface) (options : O) (outbounds : OutboundManager)
    (hsvc : w.globalBoxService = some svc)
    (hpi : w.globalPlatformInterface = some platformInterface)
    (hparse : e.parseConfig platformInterface configContent = .ok options)
    (hnew : e.New platformInterface options = .ok outbounds)
    (hstart : e.Start { outbounds := outbounds, started := false, closed := false } = none)
    (hsaved : getSelectedOutboundFromService (some svc) ≠ "") :
    (ReloadConfig e w configContent true).1 = none ∧
    ((ReloadConfig e w configContent true).2.globalBoxService.bind fun s => s.inst) =
      some { outbounds :=
               (restoreSelectedLoop outbounds (getSelectedOutboundFromService (some svc))
                 selectorTags).1,
             started := true, closed := false } := by
  simp [ReloadConfig, hsvc, hpi, hparse, hnew, hstart, saveSelection_true, installInstance,
    hsaved, restoreSelectedOutboundToService]

/-- C3, refuted as stated: the demo service has `node-A` selected; the new configuration
still has the egress path `node-A` but names its group `GLOBAL`; the reload succeeds and the
selection read from the new instance is not `node-A`. -/
theorem ReloadConfig_selection_lost_when_group_renamed :
    getSelectedOutboundFromService demoWorld.globalBoxService = "node-A" ∧
    (ReloadConfig demoEngine demoWorld "renamed" true).1 = none ∧
    (((ReloadConfig demoEngine demoWorld "renamed" true).2.globalBoxService.bind
        fun s => s.inst).bind fun box => box.outbounds.Outbound "node-A") = some plainOutbound ∧
    getSelectedOutboundFromService (ReloadConfig demoEngine demoWorld "renamed" true).2.globalBoxService
      ≠ "node-A" :=
  ⟨by decide, by decide, by decide, by decide⟩

/-- C3, as amended: for a successful `ReloadConfig` with `preserveSelector = true` whose
read of the old instance gave a non-empty name `n`: if the write of `n` resolves, in the new
instance, to the group the read resolves to (the first listed group that is registered with
`SelectOutbound` and has `n` as a member is the first listed group registered with `Now()`),
then `getSelectedOutboundFromService` on the new instance returns `n`; if no listed group of
the new instance accepts `n`, the call still returns success and the new instance is exactly
as built, its selection at the default. -/
theorem ReloadConfig_preserves_selection {O : Type} (e : Engine O) (w : World)
    (configContent : String) (svc : BoxService)
    (platformInterface : PlatformInterface) (options : O) (outbounds : OutboundManager)
    (hsvc : w.globalBoxService = some svc)
    (hpi : w.globalPlatformInterface = some platformInterface)
    (hparse : e.parseConfig platformInterface configContent = .ok options)
    (hnew : e.New platformInterface options = .ok outbounds)
    (hstart : e.Start { outbounds := outbounds, started := false, closed := false } = none)
    (hsaved : getSelectedOutboundFromService (some svc) ≠ "") :
    (ReloadConfig e w configContent true).1 = none ∧
    (∀ g, readGroup outbounds selectorTags = some g →
      writeGroup outbounds (getSelectedOutboundFromService (some svc)) selectorTags = some g →
      getSelectedOutboundFromService (ReloadConfig e w configContent true).2.globalBoxService
        = getSelectedOutboundFromService (some svc)) ∧
    (writeGroup outbounds (getSelectedOutboundFromService (some svc)) selectorTags = none →
      ((ReloadConfig e w configContent true).2.globalBoxService.bind fun s => s.inst)
          = some { outbounds := outbounds, started := true, closed := false } ∧
      getSelectedOutboundFromService (ReloadConfig e w configContent true).2.globalBoxService
        = getSelectedLoop outbounds selectorTags) := by
  obtain ⟨hok, hst⟩ := ReloadConfig_success_state e w configContent svc platformInterface
    options outbounds hsvc hpi hparse hnew hstart hsaved
  have hread : ∀ box : Box,
      ((ReloadConfig e w configContent true).2.globalBoxService.bind fun s => s.inst) = some box →
      getSelectedOutboundFromService (ReloadConfig e w configContent true).2.globalBoxService
        = getSelectedLoop box.outbounds selectorTags := by
    intro box hb
    cases hg : (ReloadConfig e w configContent true).2.globalBoxService with
    | none => rw [hg] at hb; simp at hb
    | some s =>
      rw [hg] at hb
      simp only [Option.some_bind] at hb
      simp [getSelectedOutboundFromService, hb]
  refine ⟨hok, ?_, ?_⟩
  · intro g hr hw
    rw [hread _ hst]
    exact getSelectedLoop_restore outbounds _ g selectorTags hr hw
  · intro hw
    have hsame : (restoreSelectedLoop outbounds (getSelectedOutboundFromService (some svc))
        selectorTags).1 = outbounds := by
      rw [restoreSelectedLoop_eq, hw]
    rw [hsame] at hst
    exact ⟨hst, hread _ hst⟩

/-- Witness of the amended C3: the demo service, with `node-A` selected, reloaded with a
configuration that keeps the group `proxy`, whose default is `node-B`; the selection read
from the new instance is the one saved from the old. -/
theorem ReloadConfig_preserves_selection_witness :
    (ReloadConfig demoEngine demoWorld "same" true).1 = none ∧
    getSelectedOutboundFromService (ReloadConfig demoEngine demoWorld "same" true).2.globalBoxService
      = getSelectedOutboundFromService (some demoService) :=
  have h := ReloadConfig_preserves_selection demoEngine demoWorld "same" demoService
    demoPlatform .sameGroup
    [("proxy", selectorGroup "node-B" ["node-A", "node-B"]),
      ("node-A", plainOutbound), ("node-B", plainOutbound)]
    rfl rfl rfl rfl (by decide) (by decide)
  ⟨h.1, h.2.1 "proxy" (by decide) (by decide)⟩

/-! ## Latency history: lemmas -/

theorem lookup_filter_ne (st : HistoryStorage) (t u : String) (h : u ≠ t) :
    (st.filter fun p => p.1 != t).lookup u = st.lookup u := by
  induction st with
  | nil => rfl
  | cons p st ih =>
    obtain ⟨k, v⟩ := p
    by_cases hk : k = t
    · subst hk
      have hu : (u == k) = false := by simpa using h
      simp [List.filter_cons, List.lookup_cons, hu, ih]
    · have hk' : (k != t) = true := by simpa using hk
      simp only [List.filter_cons, hk', if_true, List.lookup_cons, ih]

theorem LoadURLTestHistory_store_self (st : HistoryStorage) (t : String) (h : URLTestHistory) :
    (st.StoreURLTestHistory t h).LoadURLTestHistory t = some h := by
  simp [HistoryStorage.StoreURLTestHistory, HistoryStorage.LoadURLTestHistory, List.lookup_cons]

theorem LoadURLTestHistory_store_ne (st : HistoryStorage) (t u : String) (h : URLTestHistory)
    (hu : u ≠ t) :
    (st.StoreURLTestHistory t h).LoadURLTestHistory u = st.LoadURLTestHistory u := by
  have hb : (u == t) = false := by simpa using hu
  simp only [HistoryStorage.StoreURLTestHistory, HistoryStorage.LoadURLTestHistory,
    List.lookup_cons, hb]
  exact lookup_filter_ne st t u hu

theorem URLTestOutbound_ok (svc : BoxService) (storage : HistoryStorage)
    (t url : String) (timeoutMs : Int) (URLTest : String → Int → Except String Nat) (now : Nat)
    (box : Box) (outbound : Outbound) (delay : Nat)
    (hstorage : svc.urlTestHistoryStorage = some storage)
    (hi : svc.inst = some box) (ho : box.outbounds.Outbound t = some outbound)
    (hd : outbound.isDialer = true)
    (hu : URLTest (if url = "" then defaultTestURL else url) timeoutMs = .ok delay) :
    URLTestOutbound (some svc) t url timeoutMs URLTest now =
      (Int.ofNat (delay % 65536),
        some { svc with
          urlTestHistoryStorage := some (storage.StoreURLTestHistory t ⟨now, delay % 65536⟩) }) := by
  simp [URLTestOutbound, hi, ho, hd, hu, hstorage]

theorem URLTestOutbound_fail (svc : BoxService)
    (t url : String) (timeoutMs : Int) (URLTest : String → Int → Except String Nat) (now : Nat)
    (h : ¬ ∃ box outbound delay, svc.inst = some box ∧ box.outbounds.Outbound t = some outbound ∧
        outbound.isDialer = true ∧
        URLTest (if url = "" then defaultTestURL else url) timeoutMs = .ok delay) :
    URLTestOutbound (some svc) t url timeoutMs URLTest now = (-1, some svc) := by
  simp only [URLTestOutbound]
  cases hi : svc.inst with
  | none => rfl
  | some box =>
    simp only []
    cases ho : box.outbounds.Outbound t with
    | none => rfl
    | some outbound =>
      simp only []
      by_cases hd : outbound.isDialer = true
      · cases hu : URLTest (if url = "" then defaultTestURL else url) timeoutMs with
        | error err => simp [hd, hu]
        | ok delay => exact absurd ⟨box, outbound, delay, hi, ho, hd, hu⟩ h
      · simp [hd]

/-- C10: for a service with a history storage and a tag `t`, `URLTestOutbound` returns either
`-1` or a delay `d >= 0`; it returns `d >= 0` exactly when the instance is present, `t` names a
dialer and the test succeeds; then `GetURLTestHistory t` is `d` afterwards, whatever sample
`t` had before, and `GetURLTestHistory u` is unchanged for every other tag `u`; when it
returns `-1` the service, hence the history of every tag, is unchanged.  `GetURLTestHistory`
is a function of the service that returns no new state, so repeated calls agree, and it
returns `-1` for a tag without a sample. -/
theorem URLTestOutbound_history (svc : BoxService) (storage : HistoryStorage)
    (t url : String) (timeoutMs : Int) (URLTest : String → Int → Except String Nat) (now : Nat)
    (hstorage : svc.urlTestHistoryStorage = some storage) :
    ((URLTestOutbound (some svc) t url timeoutMs URLTest now).1 = -1 ∨
      0 ≤ (URLTestOutbound (some svc) t url timeoutMs URLTest now).1) ∧
    (0 ≤ (URLTestOutbound (some svc) t url timeoutMs URLTest now).1 ↔
      ∃ box outbound delay, svc.inst = some box ∧ box.outbounds.Outbound t = some outbound ∧
        outbound.isDialer = true ∧
        URLTest (if url = "" then defaultTestURL else url) timeoutMs = .ok delay) ∧
    (0 ≤ (URLTestOutbound (some svc) t url timeoutMs URLTest now).1 →
      GetURLTestHistory (URLTestOutbound (some svc) t url timeoutMs URLTest now).2 t
        = (URLTestOutbound (some svc) t url timeoutMs URLTest now).1 ∧
      ∀ u, u ≠ t →
        GetURLTestHistory (URLTestOutbound (some svc) t url timeoutMs URLTest now).2 u
          = GetURLTestHistory (some svc) u) ∧
    ((URLTestOutbound (some svc) t url timeoutMs URLTest now).1 = -1 →
      (URLTestOutbound (some svc) t url timeoutMs URLTest now).2 = some svc) ∧
    (storage.LoadURLTestHistory t = none → GetURLTestHistory (some svc) t = -1) := by
  have hlast : storage.LoadURLTestHistory t = none → GetURLTestHistory (some svc) t = -1 := by
    intro h; simp [GetURLTestHistory, hstorage, h]
  by_cases hsucc : ∃ box outbound delay, svc.inst = some box ∧
      box.outbounds.Outbound t = some outbound ∧ outbound.isDialer = true ∧
      URLTest (if url = "" then defaultTestURL else url) timeoutMs = .ok delay
  · obtain ⟨box, outbound, delay, hi, ho, hd, hu⟩ := hsucc
    rw [URLTestOutbound_ok svc storage t url timeoutMs URLTest now box outbound delay
      hstorage hi ho hd hu]
    have h0 : (0 : Int) ≤ Int.ofNat (delay % 65536) := Int.ofNat_nonneg _
    refine ⟨Or.inr h0, ?_, ?_, ?_, hlast⟩
    · exact ⟨fun _ => ⟨box, outbound, delay, hi, ho, hd, hu⟩, fun _ => h0⟩
    · intro _
      refine ⟨?_, ?_⟩
      · simp [GetURLTestHistory, LoadURLTestHistory_store_self]
      · intro u hu'
        simp [GetURLTestHistory, hstorage, LoadURLTestHistory_store_ne _ _ _ _ hu']
    · intro h
      simp only [] at h
      rw [h] at h0
      exact absurd h0 (by decide)
  · rw [URLTestOutbound_fail svc t url timeoutMs URLTest now hsucc]
    have hneg : ¬ (0 : Int) ≤ -1 := by decide
    refine ⟨Or.inl rfl, ?_, ?_, fun _ => rfl, hlast⟩
    · exact ⟨fun h => absurd h hneg, fun h => absurd h hsucc⟩
    · intro h
      exact absurd h hneg

/-- Witness of C10 on the demo service: a probe of `node-B` answered in 45 ms. -/
theorem URLTestOutbound_history_witness :
    (URLTestOutbound (some demoService) "node-B" "" 3000 (fun _ _ => .ok 45) 9).1 = 45 ∧
    GetURLTestHistory (URLTestOutbound (some demoService) "node-B" "" 3000
      (fun _ _ => .ok 45) 9).2 "node-B" = 45 ∧
    GetURLTestHistory (URLTestOutbound (some demoService) "node-B" "" 3000
      (fun _ _ => .ok 45) 9).2 "node-A" = 120 :=
  have h := URLTestOutbound_history demoService [("node-A", ⟨7, 120⟩)] "node-B" "" 3000
    (fun _ _ => .ok 45) 9 rfl
  have h0 : (URLTestOutbound (some demoService) "node-B" "" 3000 (fun _ _ => .ok 45) 9).1 = 45 :=
    by decide
  ⟨h0, (h.2.2.1 (by decide)).1.trans h0,
    ((h.2.2.1 (by decide)).2 "node-A" (by decide)).trans (by decide)⟩

/-! ## Bounded prober: lemmas -/

theorem countP_set_add {α : Type} (p : α → Bool) (l : List α) (i : Nat) (a x : α)
    (h : l[i]? = some x) :
    (l.set i a).countP p + (if p x then 1 else 0) = l.countP p + (if p a then 1 else 0) := by
  induction l generalizing i with
  | nil => simp at h
  | cons y l ih =>
    cases i with
    | zero =>
      simp only [List.getElem?_cons_zero, Option.some.injEq] at h
      subst h
      simp only [List.set_cons_zero, List.countP_cons]
      omega
    | succ i =>
      simp only [List.getElem?_cons_succ] at h
      have := ih i h
      simp only [List.set_cons_succ, List.countP_cons]
      omega

theorem sum_map_set_add {α : Type} (f : α → Nat) (l : List α) (i : Nat) (a x : α)
    (h : l[i]? = some x) :
    ((l.set i a).map f).sum + f x = (l.map f).sum + f a := by
  induction l generalizing i with
  | nil => simp at h
  | cons y l ih =>
    cases i with
    | zero =>
      simp only [List.getElem?_cons_zero, Option.some.injEq] at h
      subst h
      simp only [List.set_cons_zero, List.map_cons, List.sum_cons]
      omega
    | succ i =>
      simp only [List.getElem?_cons_succ] at h
      have := ih i h
      simp only [List.set_cons_succ, List.map_cons, List.sum_cons]
      omega

theorem getElem?_lt_length {α : Type} (l : List α) (i : Nat) (x : α) (h : l[i]? = some x) :
    i < l.length := by
  by_contra hn
  rw [List.getElem?_eq_none (Nat.le_of_not_lt hn)] at h
  exact Option.noConfusion h

theorem URLTestOutbound_snd_inst (s : Option BoxService) (t url : String) (timeoutMs : Int)
    (URLTest : String → Int → Except String Nat) (now : Nat) :
    ((URLTestOutbound s t url timeoutMs URLTest now).2.map fun svc => svc.inst)
      = s.map fun svc => svc.inst := by
  cases s with
  | none => rfl
  | some svc =>
    simp only [URLTestOutbound]
    cases hi : svc.inst with
    | none => rfl
    | some box =>
      simp only []
      cases box.outbounds.Outbound t with
      | none => rfl
      | some outbound =>
        simp only []
        cases outbound.isDialer with
        | false => rfl
        | true =>
          simp only [Bool.not_true, Bool.false_eq_true, if_false]
          cases URLTest (if url = "" then defaultTestURL else url) timeoutMs with
          | error err => rfl
          | ok delay =>
            simp only []
            cases svc.urlTestHistoryStorage <;> simp [hi]

theorem URLTestOutbound_fst_congr (s s' : Option BoxService) (t url : String) (timeoutMs : Int)
    (URLTest : String → Int → Except String Nat) (now : Nat)
    (h : (s.map fun svc => svc.inst) = s'.map fun svc => svc.inst) :
    (URLTestOutbound s t url timeoutMs URLTest now).1
      = (URLTestOutbound s' t url timeoutMs URLTest now).1 := by
  cases s with
  | none =>
    cases s' with
    | none => rfl
    | some svc' => simp at h
  | some svc =>
    cases s' with
    | none => simp at h
    | some svc' =>
      simp only [Option.map_some', Option.some.injEq] at h
      simp only [URLTestOutbound, h]
      cases svc'.inst with
      | none => rfl
      | some box =>
        simp only []
        cases box.outbounds.Outbound t with
        | none => rfl
        | some outbound =>
          simp only []
          cases outbound.isDialer with
          | false => rfl
          | true =>
            simp only [Bool.not_true, Bool.false_eq_true, if_false]
            cases URLTest (if url = "" then defaultTestURL else url) timeoutMs <;> rfl

/-- The fields of a call that no step writes. -/
theorem Batch.step_frame (net : Network) (b b' : Batch) (a : BatchAction)
    (h : b.step net a = some b') :
    b'.tags = b.tags ∧ b'.url = b.url ∧ b'.timeoutMs = b.timeoutMs ∧
      b'.concurrency = b.concurrency := by
  cases a with
  | main =>
    simp only [Batch.step, Batch.stepMain] at h
    cases hpc : b.pc with
    | acquire i =>
      rw [hpc] at h
      by_cases hs : b.sem < b.concurrency
      · simp only [hs, if_true, Option.some.injEq] at h; subst h; simp
      · simp [hs] at h
    | spawn i =>
      rw [hpc] at h
      simp only [Option.some.injEq] at h; subst h; simp
    | wait i =>
      rw [hpc] at h
      by_cases hs : b.sem < b.concurrency
      · simp only [hs, if_true, Option.some.injEq] at h; subst h; simp
      · simp [hs] at h
    | returned => rw [hpc] at h; simp at h
  | probe idx =>
    simp only [Batch.step, Batch.stepProbe] at h
    cases hp : b.probes[idx]? with
    | none => rw [hp] at h; simp at h
    | some pc =>
      rw [hp] at h
      cases pc with
      | idle => simp at h
      | finished => simp at h
      | release =>
        by_cases hs : 0 < b.sem
        · simp only [hs, if_true, Option.some.injEq] at h; subst h; simp
        · simp [hs] at h
      | call =>
        cases ht : b.tags[idx]? with
        | none => rw [ht] at h; simp at h
        | some tag => rw [ht] at h; simp only [Option.some.injEq] at h; subst h; simp
      | store d =>
        cases ht : b.tags[idx]? with
        | none => rw [ht] at h; simp at h
        | some tag => rw [ht] at h; simp only [Option.some.injEq] at h; subst h; simp

/-- The six transitions of a running call. -/
theorem Batch.step_cases (net : Network) (b b' : Batch) (a : BatchAction)
    (h : b.step net a = some b') :
    (∃ i, b.pc = .acquire i ∧ b.sem < b.concurrency ∧
      b' = { b with sem := b.sem + 1, pc := .spawn i }) ∨
    (∃ i, b.pc = .spawn i ∧
      b' = { b with probes := b.probes.set i .call,
                    pc := if i + 1 < b.tags.length then .acquire (i + 1) else .wait 0 }) ∨
    (∃ i, b.pc = .wait i ∧ b.sem < b.concurrency ∧
      b' = { b with sem := b.sem + 1,
                    pc := if i + 1 < b.concurrency then .wait (i + 1) else .returned }) ∨
    (∃ idx tag, b.probes[idx]? = some .call ∧ b.tags[idx]? = some tag ∧
      b' = { b with
        s := (URLTestOutbound b.s tag b.url b.timeoutMs (net.URLTest idx) (net.now idx)).2,
        probes := b.probes.set idx (.store
          (URLTestOutbound b.s tag b.url b.timeoutMs (net.URLTest idx) (net.now idx)).1) }) ∨
    (∃ idx tag d, b.probes[idx]? = some (.store d) ∧ b.tags[idx]? = some tag ∧
      b' = { b with results := b.results.set idx { Tag := tag, Delay := d, Error := "" },
                    probes := b.probes.set idx .release }) ∨
    (∃ idx, b.probes[idx]? = some .release ∧ 0 < b.sem ∧
      b' = { b with sem := b.sem - 1, probes := b.probes.set idx .finished }) := by
  cases a with
  | main =>
    simp only [Batch.step, Batch.stepMain] at h
    cases hpc : b.pc with
    | acquire i =>
      rw [hpc] at h
      by_cases hs : b.sem < b.concurrency
      · simp only [hs, if_true, Option.some.injEq] at h
        exact Or.inl ⟨i, rfl, hs, h.symm⟩
      · simp [hs] at h
    | spawn i =>
      rw [hpc] at h
      simp only [Option.some.injEq] at h
      exact Or.inr (Or.inl ⟨i, rfl, h.symm⟩)
    | wait i =>
      rw [hpc] at h
      by_cases hs : b.sem < b.concurrency
      · simp only [hs, if_true, Option.some.injEq] at h
        exact Or.inr (Or.inr (Or.inl ⟨i, rfl, hs, h.symm⟩))
      · simp [hs] at h
    | returned => rw [hpc] at h; simp at h
  | probe idx =>
    simp only [Batch.step, Batch.stepProbe] at h
    cases hp : b.probes[idx]? with
    | none => rw [hp] at h; simp at h
    | some pc =>
      rw [hp] at h
      cases pc with
      | idle => simp at h
      | finished => simp at h
      | release =>
        by_cases hs : 0 < b.sem
        · simp only [hs, if_true, Option.some.injEq] at h
          exact Or.inr (Or.inr (Or.inr (Or.inr (Or.inr ⟨idx, hp, hs, h.symm⟩))))
        · simp [hs] at h
      | call =>
        cases ht : b.tags[idx]? with
        | none => rw [ht] at h; simp at h
        | some tag =>
          rw [ht] at h
          simp only [Option.some.injEq] at h
          exact Or.inr (Or.inr (Or.inr (Or.inl ⟨idx, tag, hp, ht, h.symm⟩)))
      | store d =>
        cases ht : b.tags[idx]? with
        | none => rw [ht] at h; simp at h
        | some tag =>
          rw [ht] at h
          simp only [Option.some.injEq] at h
          exact Or.inr (Or.inr (Or.inr (Or.inr (Or.inl ⟨idx, tag, d, hp, ht, h.symm⟩))))

theorem getD_of_getElem? (l : List String) (i : Nat) (t : String) (h : l[i]? = some t) :
    l.getD i "" = t := by
  simp [List.getD, h]

/-- Every step of a running call keeps the invariant. -/
theorem Batch.step_inv (net : Network) (s0 : Option BoxService) (b b' : Batch)
    (a : BatchAction) (hI : Batch.Inv net s0 b) (h : b.step net a = some b') :
    Batch.Inv net s0 b' := by
  have hv := hI.pc_valid
  have hse := hI.sem_eq
  rcases Batch.step_cases net b b' a h with
    ⟨i, hpc, hs, rfl⟩ | ⟨i, hpc, rfl⟩ | ⟨i, hpc, hs, rfl⟩ | ⟨idx, tag, hp, ht, rfl⟩ |
    ⟨idx, tag, d, hp, ht, rfl⟩ | ⟨idx, hp, hs, rfl⟩
  · -- acquire
    rw [hpc] at hv hse
    simp only [BatchPc.valid, BatchPc.held] at hv hse
    refine ⟨hI.conc_pos, hI.probes_len, hI.results_len, hv, ?_, ?_, ?_, hI.svc_inst,
      hI.stored, hI.written⟩
    · simp only [Batch.inFlight, BatchPc.held] at hse ⊢; omega
    · exact hs
    · intro k hk
      have := hI.idle_iff k hk
      rw [hpc] at this
      simpa [BatchPc.launched] using this
  · -- spawn
    rw [hpc] at hv hse
    simp only [BatchPc.valid, BatchPc.held] at hv hse
    have hidle : b.probes[i]? = some .idle := by
      have := (hI.idle_iff i hv).2
      rw [hpc] at this
      exact this (Nat.le_refl _)
    have hcnt := countP_set_add ProbePc.inFlight b.probes i .call .idle hidle
    simp only [ProbePc.inFlight, Bool.false_eq_true, if_false, if_true, Nat.add_zero] at hcnt
    have hsl := hI.sem_le
    refine ⟨hI.conc_pos, ?_, hI.results_len, ?_, ?_, hI.sem_le, ?_, hI.svc_inst, ?_, ?_⟩
    · simpa using hI.probes_len
    · by_cases hn : i + 1 < b.tags.length
      · simp [hn, BatchPc.valid]
      · simpa [hn, BatchPc.valid] using hI.conc_pos
    · simp only [Batch.inFlight] at hse ⊢
      by_cases hn : i + 1 < b.tags.length
      · simp only [hn, if_true, BatchPc.held]; omega
      · simp only [hn, if_false, BatchPc.held]; omega
    · intro k hk
      have hik := hI.idle_iff k hk
      rw [hpc] at hik
      simp only [BatchPc.launched] at hik
      by_cases hki : i = k
      · subst hki
        have hlt : i < b.probes.length := by rw [hI.probes_len]; exact hv
        simp only [List.getElem?_set_self hlt]
        by_cases hn : i + 1 < b.tags.length
        · simp [hn, BatchPc.launched]
        · simp only [hn, if_false, BatchPc.launched]
          constructor
          · intro hc; simp at hc
          · intro hc; omega
      · simp only [List.getElem?_set_ne hki]
        by_cases hn : i + 1 < b.tags.length
        · simp only [hn, if_true, BatchPc.launched]
          rw [hik]; omega
        · simp only [hn, if_false, BatchPc.launched]
          rw [hik]; omega
    · intro k d hkd
      by_cases hki : i = k
      · subst hki
        have hlt : i < b.probes.length := by rw [hI.probes_len]; exact hv
        simp [List.getElem?_set_self hlt] at hkd
      · simp only [List.getElem?_set_ne hki] at hkd
        exact hI.stored k d hkd
    · intro k hk
      by_cases hki : i = k
      · subst hki
        have hlt : i < b.probes.length := by rw [hI.probes_len]; exact hv
        simp [List.getElem?_set_self hlt] at hk
      · simp only [List.getElem?_set_ne hki] at hk
        exact hI.written k hk
  · -- wait
    rw [hpc] at hv hse
    simp only [BatchPc.valid, BatchPc.held] at hv hse
    refine ⟨hI.conc_pos, hI.probes_len, hI.results_len, ?_, ?_, ?_, ?_, hI.svc_inst,
      hI.stored, hI.written⟩
    · by_cases hn : i + 1 < b.concurrency
      · simp [hn, BatchPc.valid]
      · simp [hn, BatchPc.valid]
    · simp only [Batch.inFlight] at hse ⊢
      by_cases hn : i + 1 < b.concurrency
      · simp only [hn, if_true, BatchPc.held]; omega
      · simp only [hn, if_false, BatchPc.held]; omega
    · exact hs
    · intro k hk
      have := hI.idle_iff k hk
      rw [hpc] at this
      by_cases hn : i + 1 < b.concurrency
      · simpa [hn, BatchPc.launched] using this
      · simpa [hn, BatchPc.launched] using this
  · -- call
    have hlt : idx < b.probes.length := getElem?_lt_length _ _ _ hp
    have hcnt := countP_set_add ProbePc.inFlight b.probes idx
      (.store (URLTestOutbound b.s tag b.url b.timeoutMs (net.URLTest idx) (net.now idx)).1)
      .call hp
    simp only [ProbePc.inFlight, if_true] at hcnt
    refine ⟨hI.conc_pos, ?_, hI.results_len, hI.pc_valid, ?_, hI.sem_le, ?_, ?_, ?_, ?_⟩
    · simpa using hI.probes_len
    · simp only [Batch.inFlight] at hse ⊢; omega
    · intro k hk
      have hik := hI.idle_iff k hk
      by_cases hki : idx = k
      · subst hki
        simp only [List.getElem?_set_self hlt]
        rw [← hik, hp]; simp
      · simp only [List.getElem?_set_ne hki]; exact hik
    · simp only [URLTestOutbound_snd_inst]; exact hI.svc_inst
    · intro k d hkd
      by_cases hki : idx = k
      · subst hki
        simp only [List.getElem?_set_self hlt, Option.some.injEq, ProbePc.store.injEq] at hkd
        rw [← hkd]
        simp only [probeDelay, getD_of_getElem? _ _ _ ht]
        exact URLTestOutbound_fst_congr _ _ _ _ _ _ _ hI.svc_inst
      · simp only [List.getElem?_set_ne hki] at hkd
        exact hI.stored k d hkd
    · intro k hk
      by_cases hki : idx = k
      · subst hki
        simp [List.getElem?_set_self hlt] at hk
      · simp only [List.getElem?_set_ne hki] at hk
        exact hI.written k hk
  · -- store
    have hlt : idx < b.probes.length := getElem?_lt_length _ _ _ hp
    have hcnt := countP_set_add ProbePc.inFlight b.probes idx .release (.store d) hp
    simp only [ProbePc.inFlight, if_true] at hcnt
    have hd := hI.stored idx d hp
    refine ⟨hI.conc_pos, ?_, ?_, hI.pc_valid, ?_, hI.sem_le, ?_, hI.svc_inst, ?_, ?_⟩
    · simpa using hI.probes_len
    · simpa using hI.results_len
    · simp only [Batch.inFlight] at hse ⊢; omega
    · intro k hk
      have hik := hI.idle_iff k hk
      by_cases hki : idx = k
      · subst hki
        simp only [List.getElem?_set_self hlt]
        rw [← hik, hp]; simp
      · simp only [List.getElem?_set_ne hki]; exact hik
    · intro k d' hkd
      by_cases hki : idx = k
      · subst hki
        simp [List.getElem?_set_self hlt] at hkd
      · simp only [List.getElem?_set_ne hki] at hkd
        exact hI.stored k d' hkd
    · intro k hk
      by_cases hki : idx = k
      · subst hki
        have hlt' : idx < b.results.length := by rw [hI.results_len, ← hI.probes_len]; exact hlt
        simp only [List.getElem?_set_self hlt', expectedResult, getD_of_getElem? _ _ _ ht, hd]
      · simp only [List.getElem?_set_ne hki] at hk ⊢
        exact hI.written k hk
  · -- release
    have hlt : idx < b.probes.length := getElem?_lt_length _ _ _ hp
    have hcnt := countP_set_add ProbePc.inFlight b.probes idx .finished .release hp
    simp only [ProbePc.inFlight, if_true, Bool.false_eq_true, if_false, Nat.add_zero] at hcnt
    refine ⟨hI.conc_pos, ?_, hI.results_len, hI.pc_valid, ?_, ?_, ?_, hI.svc_inst, ?_, ?_⟩
    · simpa using hI.probes_len
    · simp only [Batch.inFlight] at hse ⊢; omega
    · have := hI.sem_le
      show b.sem - 1 ≤ b.concurrency
      omega
    · intro k hk
      have hik := hI.idle_iff k hk
      by_cases hki : idx = k
      · subst hki
        simp only [List.getElem?_set_self hlt]
        rw [← hik, hp]; simp
      · simp only [List.getElem?_set_ne hki]; exact hik
    · intro k d' hkd
      by_cases hki : idx = k
      · subst hki
        simp [List.getElem?_set_self hlt] at hkd
      · simp only [List.getElem?_set_ne hki] at hkd
        exact hI.stored k d' hkd
    · intro k hk
      by_cases hki : idx = k
      · subst hki
        exact hI.written idx (Or.inl hp)
      · simp only [List.getElem?_set_ne hki] at hk
        exact hI.written k hk

theorem effectiveConcurrency_pos (concurrency : Int) : 0 < effectiveConcurrency concurrency := by
  unfold effectiveConcurrency
  split <;> omega

/-- The state in which the launch loop is entered satisfies the invariant. -/
theorem URLTestBatch.start_inv (net : Network) (s : Option BoxService) (tags : List String)
    (url : String) (timeoutMs : Int) (concurrency : Int) (b : Batch)
    (h : URLTestBatch.start s tags url timeoutMs concurrency = some b) :
    Batch.Inv net s b ∧ b.tags = tags ∧ b.url = url ∧ b.timeoutMs = timeoutMs ∧
      b.concurrency = (effectiveConcurrency concurrency).toNat ∧
      tags ≠ [] ∧ ∃ svc box, s = some svc ∧ svc.inst = some box := by
  cases s with
  | none => simp [URLTestBatch.start] at h
  | some svc =>
    simp only [URLTestBatch.start] at h
    cases hi : svc.inst with
    | none => simp [hi] at h
    | some box =>
      by_cases ht : tags.length = 0
      · simp [hi, ht] at h
      · simp only [hi, Option.isNone_some, Bool.false_eq_true, if_false, ht,
          Option.some.injEq] at h
        subst h
        have hpos : 0 < tags.length := Nat.pos_of_ne_zero ht
        have hc := effectiveConcurrency_pos concurrency
        refine ⟨⟨?_, ?_, ?_, ?_, ?_, ?_, ?_, rfl, ?_, ?_⟩, rfl, rfl, rfl, rfl, ?_, svc, box, rfl, hi⟩
        · show 0 < (effectiveConcurrency concurrency).toNat
          omega
        · simp
        · simp
        · simpa [BatchPc.valid] using hpos
        · simp [Batch.inFlight, BatchPc.held, List.countP_replicate, ProbePc.inFlight]
        · exact Nat.zero_le _
        · intro k hk
          simp only [BatchPc.launched, Nat.zero_le, iff_true]
          exact List.getElem?_replicate_of_lt hk
        · intro k d hkd
          simp only [List.getElem?_replicate] at hkd
          split at hkd <;> simp at hkd
        · intro k hk
          simp only [List.getElem?_replicate] at hk
          rcases hk with hk | hk <;> (split at hk <;> simp at hk)
        · intro hnil
          rw [hnil] at ht
          exact ht rfl

theorem Batch.run_append (net : Network) (b : Batch) (s1 s2 : List BatchAction) :
    b.run net (s1 ++ s2) = (b.run net s1).bind fun b' => b'.run net s2 := by
  induction s1 generalizing b with
  | nil => rfl
  | cons a rest ih =>
    simp only [List.cons_append, Batch.run]
    cases b.step net a with
    | none => rfl
    | some b' => exact ih b'

/-- The invariant and the read-only fields along a schedule. -/
theorem Batch.run_inv (net : Network) (s0 : Option BoxService) (schedule : List BatchAction)
    (b b' : Batch) (hI : Batch.Inv net s0 b) (h : b.run net schedule = some b') :
    Batch.Inv net s0 b' ∧ b'.tags = b.tags ∧ b'.url = b.url ∧ b'.timeoutMs = b.timeoutMs ∧
      b'.concurrency = b.concurrency := by
  induction schedule generalizing b with
  | nil =>
    simp only [Batch.run, Option.some.injEq] at h
    subst h
    exact ⟨hI, rfl, rfl, rfl, rfl⟩
  | cons a rest ih =>
    simp only [Batch.run] at h
    cases hs : b.step net a with
    | none => rw [hs] at h; simp at h
    | some b1 =>
      rw [hs] at h
      obtain ⟨h1, h2, h3, h4⟩ := Batch.step_frame net b b1 a hs
      obtain ⟨hI', g1, g2, g3, g4⟩ := ih b1 (Batch.step_inv net s0 b b1 a hI hs) h
      exact ⟨hI', g1.trans h1, g2.trans h2, g3.trans h3, g4.trans h4⟩

/-- Every step brings the call one step closer to its end. -/
theorem Batch.step_remaining (net : Network) (s0 : Option BoxService) (b b' : Batch)
    (a : BatchAction) (hI : Batch.Inv net s0 b) (h : b.step net a = some b') :
    b'.remaining + 1 = b.remaining := by
  have hv := hI.pc_valid
  rcases Batch.step_cases net b b' a h with
    ⟨i, hpc, hs, rfl⟩ | ⟨i, hpc, rfl⟩ | ⟨i, hpc, hs, rfl⟩ | ⟨idx, tag, hp, ht, rfl⟩ |
    ⟨idx, tag, d, hp, ht, rfl⟩ | ⟨idx, hp, hs, rfl⟩
  · rw [hpc] at hv
    simp only [BatchPc.valid] at hv
    simp only [Batch.remaining, hpc, BatchPc.remaining]
    omega
  · rw [hpc] at hv
    simp only [BatchPc.valid] at hv
    have hidle : b.probes[i]? = some .idle := by
      have := (hI.idle_iff i hv).2
      rw [hpc] at this
      exact this (Nat.le_refl _)
    have hsum := sum_map_set_add ProbePc.remaining b.probes i .call .idle hidle
    simp only [ProbePc.remaining] at hsum
    simp only [Batch.remaining, hpc]
    by_cases hn : i + 1 < b.tags.length
    · simp only [hn, if_true, BatchPc.remaining]; omega
    · simp only [hn, if_false, BatchPc.remaining]; omega
  · rw [hpc] at hv
    simp only [BatchPc.valid] at hv
    simp only [Batch.remaining, hpc]
    by_cases hn : i + 1 < b.concurrency
    · simp only [hn, if_true, BatchPc.remaining]; omega
    · simp only [hn, if_false, BatchPc.remaining]; omega
  · have hsum := sum_map_set_add ProbePc.remaining b.probes idx
      (.store (URLTestOutbound b.s tag b.url b.timeoutMs (net.URLTest idx) (net.now idx)).1)
      .call hp
    simp only [ProbePc.remaining] at hsum
    simp only [Batch.remaining]
    omega
  · have hsum := sum_map_set_add ProbePc.remaining b.probes idx .release (.store d) hp
    simp only [ProbePc.remaining] at hsum
    simp only [Batch.remaining]
    omega
  · have hsum := sum_map_set_add ProbePc.remaining b.probes idx .finished .release hp
    simp only [ProbePc.remaining] at hsum
    simp only [Batch.remaining]
    omega

/-- A schedule the call can follow is as long as the distance it covers. -/
theorem Batch.run_remaining (net : Network) (s0 : Option BoxService)
    (schedule : List BatchAction) (b b' : Batch) (hI : Batch.Inv net s0 b)
    (h : b.run net schedule = some b') :
    b'.remaining + schedule.length = b.remaining := by
  induction schedule generalizing b with
  | nil =>
    simp only [Batch.run, Option.some.injEq] at h
    subst h
    rfl
  | cons a rest ih =>
    simp only [Batch.run] at h
    cases hs : b.step net a with
    | none => rw [hs] at h; simp at h
    | some b1 =>
      rw [hs] at h
      have h1 := Batch.step_remaining net s0 b b1 a hI hs
      have h2 := ih b1 (Batch.step_inv net s0 b b1 a hI hs) h
      simp only [List.length_cons]
      omega

/-- A goroutine that is in flight can take its next step. -/
theorem Batch.probe_enabled (net : Network) (s0 : Option BoxService) (b : Batch)
    (hI : Batch.Inv net s0 b) (hpos : 0 < b.inFlight) :
    ∃ idx b', b.step net (.probe idx) = some b' := by
  have hsem : 0 < b.sem := by have := hI.sem_eq; omega
  obtain ⟨x, hx, hfl⟩ := List.countP_pos_iff.1 hpos
  obtain ⟨idx, hlt, hget⟩ := List.getElem_of_mem hx
  have hp : b.probes[idx]? = some x := by
    rw [List.getElem?_eq_getElem hlt, hget]
  have hlt' : idx < b.tags.length := by rw [← hI.probes_len]; exact hlt
  have ht : b.tags[idx]? = some b.tags[idx] := List.getElem?_eq_getElem hlt'
  refine ⟨idx, ?_⟩
  simp only [Batch.step, Batch.stepProbe, hp, ht]
  cases x with
  | idle => simp [ProbePc.inFlight] at hfl
  | finished => simp [ProbePc.inFlight] at hfl
  | call => exact ⟨_, rfl⟩
  | store d => exact ⟨_, rfl⟩
  | release => simp [hsem]

/-- A call that has not returned is never stuck. -/
theorem Batch.progress (net : Network) (s0 : Option BoxService) (b : Batch)
    (hI : Batch.Inv net s0 b) (hpc : b.pc ≠ .returned) :
    ∃ a b', b.step net a = some b' := by
  have hse := hI.sem_eq
  have hle := hI.sem_le
  have hv := hI.pc_valid
  cases hp : b.pc with
  | returned => exact absurd hp hpc
  | spawn i => exact ⟨.main, by simp [Batch.step, Batch.stepMain, hp]⟩
  | acquire i =>
    by_cases hs : b.sem < b.concurrency
    · exact ⟨.main, by simp [Batch.step, Batch.stepMain, hp, hs]⟩
    · rw [hp] at hse
      simp only [BatchPc.held] at hse
      have hc := hI.conc_pos
      obtain ⟨idx, b', h⟩ := Batch.probe_enabled net s0 b hI (by omega)
      exact ⟨.probe idx, b', h⟩
  | wait i =>
    by_cases hs : b.sem < b.concurrency
    · exact ⟨.main, by simp [Batch.step, Batch.stepMain, hp, hs]⟩
    · rw [hp] at hse hv
      simp only [BatchPc.held, BatchPc.valid] at hse hv
      obtain ⟨idx, b', h⟩ := Batch.probe_enabled net s0 b hI (by omega)
      exact ⟨.probe idx, b', h⟩

/-- From every state of a call some schedule takes the call to its return. -/
theorem Batch.completes (net : Network) (s0 : Option BoxService) (b : Batch)
    (hI : Batch.Inv net s0 b) :
    ∃ schedule b', b.run net schedule = some b' ∧ b'.pc = .returned := by
  generalize hn : b.remaining = n
  induction n using Nat.strong_induction_on generalizing b with
  | _ n ih =>
    by_cases hpc : b.pc = .returned
    · exact ⟨[], b, rfl, hpc⟩
    · obtain ⟨a, b1, hs⟩ := Batch.progress net s0 b hI hpc
      have hr := Batch.step_remaining net s0 b b1 a hI hs
      obtain ⟨schedule, b', hrun, hret⟩ :=
        ih b1.remaining (by omega) b1 (Batch.step_inv net s0 b b1 a hI hs) rfl
      exact ⟨a :: schedule, b', by simp [Batch.run, hs, hrun], hret⟩

/-- When the caller has returned no probe is in flight and every entry is filled with the
tag of its target and the delay `URLTestOutbound` returned for it. -/
theorem Batch.returned_results (net : Network) (s0 : Option BoxService) (b : Batch)
    (hI : Batch.Inv net s0 b) (hpc : b.pc = .returned) :
    b.inFlight = 0 ∧ b.results.length = b.tags.length ∧
    ∀ k, k < b.tags.length →
      b.results[k]? = some (expectedResult net s0 b.tags b.url b.timeoutMs k) := by
  have hse := hI.sem_eq
  have hle := hI.sem_le
  rw [hpc] at hse
  simp only [BatchPc.held] at hse
  have h0 : b.inFlight = 0 := by omega
  refine ⟨h0, hI.results_len, ?_⟩
  intro k hk
  have hlt : k < b.probes.length := by rw [hI.probes_len]; exact hk
  have hget : b.probes[k]? = some b.probes[k] := List.getElem?_eq_getElem hlt
  have hnot : ProbePc.inFlight b.probes[k] = false := by
    have := (List.countP_eq_zero.1 h0) b.probes[k] (List.getElem_mem hlt)
    simpa using this
  have hidle := hI.idle_iff k hk
  rw [hpc] at hidle
  simp only [BatchPc.launched] at hidle
  apply hI.written k
  rw [hget] at hidle ⊢
  cases hx : b.probes[k] with
  | idle => rw [hx] at hidle; exact absurd (hidle.1 rfl) (by omega)
  | call => rw [hx] at hnot; simp [ProbePc.inFlight] at hnot
  | store d => rw [hx] at hnot; simp [ProbePc.inFlight] at hnot
  | release => exact Or.inl rfl
  | finished => exact Or.inr rfl

theorem URLTestBatch.start_some (svc : BoxService) (box : Box) (tags : List String)
    (url : String) (timeoutMs : Int) (concurrency : Int)
    (hinst : svc.inst = some box) (htags : tags ≠ []) :
    ∃ b0, URLTestBatch.start (some svc) tags url timeoutMs concurrency = some b0 := by
  have ht : tags.length ≠ 0 := fun h => htags (List.length_eq_zero.1 h)
  simp [URLTestBatch.start, hinst, ht]

/-- What a returned call hands back, in terms of the state its schedule reaches. -/
theorem URLTestBatch_returns (net : Network) (s : Option BoxService) (tags : List String)
    (url : String) (timeoutMs : Int) (concurrency : Int) (schedule : List BatchAction)
    (b0 : Batch) (r : Option BatchURLTestResult × Option BoxService)
    (hstart : URLTestBatch.start s tags url timeoutMs concurrency = some b0)
    (h : URLTestBatch net s tags url timeoutMs concurrency schedule = some r) :
    ∃ b, b0.run net schedule = some b ∧ b.pc = .returned ∧
      r = (some { results := b.results }, b.s) := by
  simp only [URLTestBatch, hstart] at h
  cases hrun : b0.run net schedule with
  | none => rw [hrun] at h; simp at h
  | some b =>
    rw [hrun] at h
    by_cases hpc : b.pc = .returned
    · simp only [hpc, if_true, Option.some.injEq] at h
      exact ⟨b, rfl, hpc, h.symm⟩
    · simp [hpc] at h

/-- The entries of a returned call, for an available service and a non-empty target list. -/
theorem URLTestBatch_entries (net : Network) (svc : BoxService) (box : Box)
    (tags : List String) (url : String) (timeoutMs : Int) (concurrency : Int)
    (hinst : svc.inst = some box) (htags : tags ≠ [])
    (schedule : List BatchAction) (r : Option BatchURLTestResult × Option BoxService)
    (h : URLTestBatch net (some svc) tags url timeoutMs concurrency schedule = some r) :
    ∃ res, r.1 = some res ∧ res.results.length = tags.length ∧
      ∀ k, k < tags.length →
        res.results[k]? = some (expectedResult net (some svc) tags url timeoutMs k) := by
  obtain ⟨b0, hstart⟩ := URLTestBatch.start_some svc box tags url timeoutMs concurrency
    hinst htags
  obtain ⟨b, hrun, hpc, hr⟩ := URLTestBatch_returns net (some svc) tags url timeoutMs
    concurrency schedule b0 r hstart h
  obtain ⟨hI0, ht0, hu0, hm0, -⟩ := URLTestBatch.start_inv net (some svc) tags url timeoutMs
    concurrency b0 hstart
  obtain ⟨hI, ht, hu, hm, -⟩ := Batch.run_inv net (some svc) schedule b0 b hI0 hrun
  obtain ⟨-, hlen, hres⟩ := Batch.returned_results net (some svc) b hI hpc
  rw [ht, ht0] at hlen hres
  rw [hu, hu0, hm, hm0] at hres
  subst hr
  exact ⟨{ results := b.results }, rfl, hlen, hres⟩

/-- Some schedule takes the call to its return from whatever state it has reached. -/
theorem URLTestBatch_completes (net : Network) (s : Option BoxService) (tags : List String)
    (url : String) (timeoutMs : Int) (concurrency : Int) (schedule : List BatchAction)
    (b0 b : Batch)
    (hstart : URLTestBatch.start s tags url timeoutMs concurrency = some b0)
    (hrun : b0.run net schedule = some b) :
    ∃ rest r, URLTestBatch net s tags url timeoutMs concurrency (schedule ++ rest) = some r := by
  obtain ⟨hI0, -⟩ := URLTestBatch.start_inv net s tags url timeoutMs concurrency b0 hstart
  obtain ⟨hI, -⟩ := Batch.run_inv net s schedule b0 b hI0 hrun
  obtain ⟨rest, b', hrest, hpc⟩ := Batch.completes net s b hI
  refine ⟨rest, (some { results := b'.results }, b'.s), ?_⟩
  simp [URLTestBatch, hstart, Batch.run_append, hrun, hrest, hpc]

/-- C5: for an available service, a non-empty parsed tag list and any concurrency value,
every schedule under which `URLTestBatch` returns gives a result with `Len() = n` whose entry
`i` carries tag `i` and the delay `URLTestOutbound` returned for it, whatever the order in
which the probes ran; from every state the call can reach some schedule takes it to its
return, and no schedule has more than `5 n + c` steps (`c` the capacity of `sem`). -/
theorem URLTestBatch_ordered_results (net : Network) (svc : BoxService) (box : Box)
    (tags : List String) (url : String) (timeoutMs : Int) (concurrency : Int)
    (hinst : svc.inst = some box) (htags : tags ≠ []) :
    (∀ schedule r,
      URLTestBatch net (some svc) tags url timeoutMs concurrency schedule = some r →
      BatchURLTestResult.Len r.1 = tags.length ∧
      ∀ (i : Nat) (hi : i < tags.length),
        BatchURLTestResult.Get r.1 i =
          some { Tag := tags[i],
                 Delay := (URLTestOutbound (some svc) tags[i] url timeoutMs (net.URLTest i)
                   (net.now i)).1,
                 Error := "" }) ∧
    (∀ schedule b0 b,
      URLTestBatch.start (some svc) tags url timeoutMs concurrency = some b0 →
      b0.run net schedule = some b →
      (∃ rest r,
        URLTestBatch net (some svc) tags url timeoutMs concurrency (schedule ++ rest) = some r) ∧
      schedule.length ≤ 5 * tags.length + (effectiveConcurrency concurrency).toNat) ∧
    ∃ schedule r, URLTestBatch net (some svc) tags url timeoutMs concurrency schedule = some r := by
  obtain ⟨b0, hstart⟩ := URLTestBatch.start_some svc box tags url timeoutMs concurrency
    hinst htags
  refine ⟨?_, ?_, ?_⟩
  · intro schedule r h
    obtain ⟨res, hr, hlen, hres⟩ := URLTestBatch_entries net svc box tags url timeoutMs
      concurrency hinst htags schedule r h
    rw [hr]
    refine ⟨by simp [BatchURLTestResult.Len, hlen], ?_⟩
    intro i hi
    have hlt : ¬ ((i : Int) < 0 ∨ (i : Int) ≥ (res.results.length : Int)) := by
      rw [hlen]; omega
    simp only [BatchURLTestResult.Get, hlt, if_false, Int.toNat_ofNat, hres i hi,
      expectedResult, probeDelay]
    have hg : tags.getD i "" = tags[i] := by
      simp [List.getD, List.getElem?_eq_getElem hi]
    rw [hg]
  · intro schedule b1 b hstart1 hrun
    refine ⟨URLTestBatch_completes net (some svc) tags url timeoutMs concurrency schedule
      b1 b hstart1 hrun, ?_⟩
    obtain ⟨hI0, ht0, -, -, hc0, -⟩ := URLTestBatch.start_inv net (some svc) tags url timeoutMs
      concurrency b1 hstart1
    have hrem := Batch.run_remaining net (some svc) schedule b1 b hI0 hrun
    have hstart' := hstart1
    simp only [URLTestBatch.start, hinst] at hstart'
    have ht : tags.length ≠ 0 := fun h => htags (List.length_eq_zero.1 h)
    simp only [Option.isNone_some, Bool.false_eq_true, if_false, ht, Option.some.injEq]
      at hstart'
    have hr0 : b1.remaining = 5 * tags.length + (effectiveConcurrency concurrency).toNat := by
      rw [← hstart']
      simp only [Batch.remaining, BatchPc.remaining, List.map_replicate, List.sum_replicate,
        ProbePc.remaining, smul_eq_mul]
      omega
    omega
  · obtain ⟨rest, r, h⟩ := URLTestBatch_completes net (some svc) tags url timeoutMs
      concurrency [] b0 b0 hstart rfl
    exact ⟨[] ++ rest, r, h⟩

/-- Witness of C5: three targets probed through a single slot, the second one unknown. -/
theorem URLTestBatch_ordered_results_witness :
    BatchURLTestResult.Len
        (some { results := [⟨"node-A", 40, ""⟩, ⟨"missing", -1, ""⟩, ⟨"node-B", 42, ""⟩] })
      = 3 ∧
    (URLTestBatch demoNetwork (some demoService) ["node-A", "missing", "node-B"] "" 3000 1
      demoSchedule).map (fun r => r.1)
      = some (some { results := [⟨"node-A", 40, ""⟩, ⟨"missing", -1, ""⟩, ⟨"node-B", 42, ""⟩] }) ∧
    ∃ schedule r, URLTestBatch demoNetwork (some demoService) ["node-A", "missing", "node-B"]
      "" 3000 1 schedule = some r :=
  have h := URLTestBatch_ordered_results demoNetwork demoService demoBox
    ["node-A", "missing", "node-B"] "" 3000 1 rfl (by decide)
  ⟨by decide, by decide, h.2.2⟩

/-- C6: in every state a `URLTestBatch` call can reach, the number of probes started and not
yet finished is at most the bound, which is `concurrency` when that is positive and `10`
otherwise; a `go` statement runs only while fewer than that many probes are in flight, and
while that many are in flight the send that precedes the next `go` statement is blocked. -/
theorem URLTestBatch_inFlight_bounded (net : Network) (s : Option BoxService)
    (tags : List String) (url : String) (timeoutMs : Int) (concurrency : Int)
    (schedule : List BatchAction) (b : Batch)
    (hrun : ((URLTestBatch.start s tags url timeoutMs concurrency).bind
      fun b0 => b0.run net schedule) = some b) :
    ((b.inFlight : Int) ≤ if 0 < concurrency then concurrency else 10) ∧
    (∀ i, b.pc = .spawn i →
      (b.inFlight : Int) < if 0 < concurrency then concurrency else 10) ∧
    (∀ i, b.pc = .acquire i →
      (b.inFlight : Int) = (if 0 < concurrency then concurrency else 10) →
      b.step net .main = none) := by
  cases hstart : URLTestBatch.start s tags url timeoutMs concurrency with
  | none => rw [hstart] at hrun; simp at hrun
  | some b0 =>
    rw [hstart] at hrun
    simp only [Option.some_bind] at hrun
    obtain ⟨hI0, -, -, -, hc0, -⟩ := URLTestBatch.start_inv net s tags url timeoutMs
      concurrency b0 hstart
    obtain ⟨hI, -, -, -, hc⟩ := Batch.run_inv net s schedule b0 b hI0 hrun
    have hse := hI.sem_eq
    have hle := hI.sem_le
    have hcap : (b.concurrency : Int) = if 0 < concurrency then concurrency else 10 := by
      rw [hc, hc0]
      unfold effectiveConcurrency
      split <;> split <;> omega
    rw [← hcap]
    refine ⟨by omega, ?_, ?_⟩
    · intro i hpc
      rw [hpc] at hse
      simp only [BatchPc.held] at hse
      omega
    · intro i hpc hfull
      rw [hpc] at hse
      simp only [BatchPc.held] at hse
      have : ¬ b.sem < b.concurrency := by omega
      simp [Batch.step, Batch.stepMain, hpc, this]

/-- Witness of C6: after the first six steps of the demo schedule, run with concurrency `0`. -/
theorem URLTestBatch_inFlight_bounded_witness :
    ∃ b, ((URLTestBatch.start (some demoService) ["node-A", "missing", "node-B"] "" 3000 0).bind
        fun b0 => b0.run demoNetwork (demoSchedule.take 6)) = some b ∧
      (b.inFlight : Int) ≤ 10 :=
  ⟨_, rfl, (URLTestBatch_inFlight_bounded demoNetwork (some demoService)
    ["node-A", "missing", "node-B"] "" 3000 0 (demoSchedule.take 6) _ rfl).1⟩

/-- C8, evaluated on the failing input: the entry of a tag that names no egress path has
`Delay = -1` and an empty `Error`. -/
theorem URLTestBatch_unknown_tag_error_empty :
    URLTestBatch demoNetwork (some demoService) ["missing"] "" 3000 1
        [.main, .main, .probe 0, .probe 0, .probe 0, .main]
      = some (some { results := [{ Tag := "missing", Delay := -1, Error := "" }] },
          some demoService) := by
  decide

/-- C9, refuted as stated: on a service without instance the call returns `nil` although
the target list is not empty. -/
theorem URLTestBatch_nil_without_instance :
    (["node-A"] : List String) ≠ [] ∧
    ∀ schedule, URLTestBatch demoNetwork (some stoppedService) ["node-A"] "" 3000 1 schedule
      = some (none, some stoppedService) :=
  ⟨by decide, fun _ => rfl⟩

/-- C9, as amended: `URLTestBatch` returns `nil` exactly when the receiver is nil, or it has
no instance, or the parsed target list is empty; in each of these cases it returns `nil` at
once, under every schedule and whatever the target list, and leaves the service as it was.
On an available service (non-nil, with an instance) it therefore returns `nil` exactly when
the target list is empty, and for a non-empty list it returns, under every schedule that
lets it return, a non-nil result with one entry per target, in order, each carrying its tag
and the delay of its own probe (`-1` for a failed one).  In every case some schedule lets
the call return. -/
theorem URLTestBatch_nil_iff_no_targets (net : Network) (s : Option BoxService)
    (tags : List String) (url : String) (timeoutMs : Int) (concurrency : Int) :
    ((s = none ∨ (∃ svc, s = some svc ∧ svc.inst = none) ∨ tags = []) →
      ∀ schedule, URLTestBatch net s tags url timeoutMs concurrency schedule = some (none, s)) ∧
    (∀ schedule r,
      URLTestBatch net s tags url timeoutMs concurrency schedule = some r →
      (r.1 = none ↔ (s = none ∨ (∃ svc, s = some svc ∧ svc.inst = none) ∨ tags = [])) ∧
      (∀ svc box, s = some svc → svc.inst = some box →
        (r.1 = none ↔ tags = []) ∧
        (tags ≠ [] → ∃ res, r.1 = some res ∧ res.results.length = tags.length ∧
          res.results.map (fun e => e.Tag) = tags ∧
          ∀ k, k < tags.length →
            (res.results[k]?).map (fun e => e.Delay)
              = some (probeDelay net s tags url timeoutMs k)))) ∧
    ∃ schedule r, URLTestBatch net s tags url timeoutMs concurrency schedule = some r := by
  have hnil : (s = none ∨ (∃ svc, s = some svc ∧ svc.inst = none) ∨ tags = []) →
      ∀ schedule, URLTestBatch net s tags url timeoutMs concurrency schedule
        = some (none, s) := by
    intro hc schedule
    rcases hc with hs | ⟨svc, hs, hi⟩ | ht
    · subst hs
      simp [URLTestBatch, URLTestBatch.start]
    · subst hs
      simp [URLTestBatch, URLTestBatch.start, hi]
    · subst ht
      cases s with
      | none => simp [URLTestBatch, URLTestBatch.start]
      | some svc => simp [URLTestBatch, URLTestBatch.start]
  by_cases hc : s = none ∨ (∃ svc, s = some svc ∧ svc.inst = none) ∨ tags = []
  · refine ⟨hnil, ?_, [], _, hnil hc []⟩
    intro schedule r h
    rw [hnil hc schedule] at h
    simp only [Option.some.injEq] at h
    subst h
    refine ⟨⟨fun _ => hc, fun _ => rfl⟩, ?_⟩
    intro svc box hs hi
    have ht : tags = [] := by
      rcases hc with hn | ⟨svc', hs', hi'⟩ | ht
      · rw [hs] at hn; cases hn
      · rw [hs] at hs'
        cases hs'
        rw [hi] at hi'
        cases hi'
      · exact ht
    exact ⟨⟨fun _ => ht, fun _ => rfl⟩, fun hne => absurd ht hne⟩
  · have htags : tags ≠ [] := fun ht => hc (Or.inr (Or.inr ht))
    obtain ⟨svc, box, hs, hi⟩ : ∃ svc box, s = some svc ∧ svc.inst = some box := by
      cases s with
      | none => exact absurd (Or.inl rfl) hc
      | some svc =>
        cases hi : svc.inst with
        | none => exact absurd (Or.inr (Or.inl ⟨svc, rfl, hi⟩)) hc
        | some box => exact ⟨svc, box, rfl, hi⟩
    subst hs
    refine ⟨hnil, ?_, ?_⟩
    · intro schedule r h
      obtain ⟨res, hr, hlen, hres⟩ := URLTestBatch_entries net svc box tags url timeoutMs
        concurrency hi htags schedule r h
      have hmain : ∃ res, r.1 = some res ∧ res.results.length = tags.length ∧
          res.results.map (fun e => e.Tag) = tags ∧
          ∀ k, k < tags.length →
            (res.results[k]?).map (fun e => e.Delay)
              = some (probeDelay net (some svc) tags url timeoutMs k) := by
        refine ⟨res, hr, hlen, ?_, ?_⟩
        · apply List.ext_getElem?
          intro k
          by_cases hk : k < tags.length
          · simp [hres k hk, expectedResult, List.getD, List.getElem?_eq_getElem hk]
          · have h1 : tags.length ≤ k := Nat.le_of_not_lt hk
            rw [List.getElem?_eq_none (by simpa [hlen] using h1), List.getElem?_eq_none h1]
        · intro k hk
          simp [hres k hk, expectedResult]
      refine ⟨⟨fun hn => ?_, fun hcond => absurd hcond hc⟩, fun svc' box' _ _ =>
        ⟨⟨fun hn => ?_, fun ht => absurd ht htags⟩, fun _ => hmain⟩⟩
      · rw [hr] at hn; cases hn
      · rw [hr] at hn; cases hn
    · obtain ⟨b0, hstart⟩ := URLTestBatch.start_some svc box tags url timeoutMs concurrency
        hi htags
      obtain ⟨rest, r, h⟩ := URLTestBatch_completes net (some svc) tags url timeoutMs
        concurrency [] b0 b0 hstart rfl
      exact ⟨[] ++ rest, r, h⟩

/-- The amended C9 on three inputs with the target list `node-A`, `missing`, `node-B`: on the
running demo service the call returns a non-nil result of three entries in the order of the
targets; on a nil receiver and on the service without instance it returns `nil` under every
schedule. -/
theorem URLTestBatch_nil_iff_no_targets_witness :
    (∃ r, URLTestBatch demoNetwork (some demoService) ["node-A", "missing", "node-B"] "" 3000 1
        demoSchedule = some r ∧
      ¬ r.1 = none ∧
      ∃ res, r.1 = some res ∧ res.results.length = 3 ∧
        res.results.map (fun e => e.Tag) = ["node-A", "missing", "node-B"] ∧
        ∀ k, k < 3 →
          (res.results[k]?).map (fun e => e.Delay)
            = some (probeDelay demoNetwork (some demoService) ["node-A", "missing", "node-B"]
                "" 3000 k)) ∧
    (∀ schedule, URLTestBatch demoNetwork none ["node-A", "missing", "node-B"] "" 3000 1 schedule
      = some (none, none)) ∧
    (∀ schedule, URLTestBatch demoNetwork (some stoppedService) ["node-A", "missing", "node-B"]
      "" 3000 1 schedule = some (none, some stoppedService)) ∧
    (∀ schedule, URLTestBatch demoNetwork (some demoService) [] "" 3000 1 schedule
      = some (none, some demoService)) :=
  ⟨⟨_, rfl,
      fun hn => absurd
        ((((URLTestBatch_nil_iff_no_targets demoNetwork (some demoService)
          ["node-A", "missing", "node-B"] "" 3000 1).2.1 demoSchedule _ rfl).2
            demoService demoBox rfl rfl).1.1 hn) (by decide),
      ((URLTestBatch_nil_iff_no_targets demoNetwork (some demoService)
        ["node-A", "missing", "node-B"] "" 3000 1).2.1 demoSchedule _ rfl).2
          demoService demoBox rfl rfl |>.2 (by decide)⟩,
    (URLTestBatch_nil_iff_no_targets demoNetwork none ["node-A", "missing", "node-B"] "" 3000
      1).1 (Or.inl rfl),
    (URLTestBatch_nil_iff_no_targets demoNetwork (some stoppedService)
      ["node-A", "missing", "node-B"] "" 3000 1).1 (Or.inr (Or.inl ⟨stoppedService, rfl, rfl⟩)),
    (URLTestBatch_nil_iff_no_targets demoNetwork (some demoService) [] "" 3000 1).1
      (Or.inr (Or.inr rfl))⟩

/-- Witness of C7 on the demo state: the reload succeeds, and it returns the same value when
closing the old instance reports no error and the selection is to be preserved. -/
theorem ReloadConfig_success_iff_witness :
    ((ReloadConfig demoEngine demoWorld "same" false).1 = none ↔
      ∃ options outbounds,
        demoEngine.parseConfig demoPlatform "same" = .ok options ∧
        demoEngine.New demoPlatform options = .ok outbounds ∧
        demoEngine.Start { outbounds := outbounds, started := false, closed := false } = none) ∧
    (ReloadConfig { demoEngine with Close := fun _ => none } demoWorld "same" true).1
      = (ReloadConfig demoEngine demoWorld "same" false).1 :=
  have h := ReloadConfig_success_iff demoEngine demoWorld "same" false demoService
    demoPlatform rfl rfl
  ⟨h.1, h.2 { demoEngine with Close := fun _ => none } demoWorld true demoService
    rfl rfl rfl rfl rfl⟩

/-! ## Concurrent reloads: lemmas -/

theorem installInstance_isSome {O : Type} (e : Engine O) (svc : BoxService) (options : O)
    (newInstance : Box) (preserveSelector : Bool) (selectedOutbound : String) :
    (installInstance e svc options newInstance preserveSelector selectedOutbound).isSome
      = true := by
  unfold installInstance
  split
  · simp only [restoreSelectedOutboundToService]
    split <;> rfl
  · rfl

/-- A step between `Lock()` and the deferred `Unlock()` starts and ends at program points
that hold the lock, moves the caller closer to its return and keeps the service set. -/
theorem Caller.advance_spec {O : Type} (e : Engine O) (c : Caller O) (w : World)
    (r : ReloadPc O × World) (h : c.advance e w = some r)
    (hsvc : c.pc.usesService = true → w.globalBoxService.isSome = true) :
    c.pc.holdsLock = true ∧ r.1.holdsLock = true ∧ r.1.stepsLeft < c.pc.stepsLeft ∧
      (r.1.usesService = true → r.2.globalBoxService.isSome = true) := by
  obtain ⟨configContent, preserveSelector, pc⟩ := c
  cases pc with
  | entry => simp [Caller.advance] at h
  | returned err => simp [Caller.advance] at h
  | unlocking err => simp [Caller.advance] at h
  | locked =>
    simp only [Caller.advance] at h
    cases hs : w.globalBoxService with
    | none =>
      simp only [hs, Option.some.injEq] at h; subst h
      simp [ReloadPc.holdsLock, ReloadPc.stepsLeft, ReloadPc.usesService]
    | some svc =>
      cases hp : w.globalPlatformInterface with
      | none =>
        simp only [hs, hp, Option.some.injEq] at h; subst h
        simp [ReloadPc.holdsLock, ReloadPc.stepsLeft, ReloadPc.usesService]
      | some platformInterface =>
        simp only [hs, hp] at h
        cases hc : e.parseConfig platformInterface configContent with
        | error err =>
          simp only [hc, Option.some.injEq] at h; subst h
          simp [ReloadPc.holdsLock, ReloadPc.stepsLeft, ReloadPc.usesService]
        | ok options =>
          simp only [hc, Option.some.injEq] at h; subst h
          simp [ReloadPc.holdsLock, ReloadPc.stepsLeft, ReloadPc.usesService, hs]
  | parsed platformInterface reloadNum selectedOutbound options =>
    simp only [Caller.advance] at h
    cases hs : w.globalBoxService with
    | none => simp [hs] at h
    | some svc =>
      simp only [hs, Option.some.injEq] at h; subst h
      simp [ReloadPc.holdsLock, ReloadPc.stepsLeft, ReloadPc.usesService]
  | retired platformInterface reloadNum selectedOutbound options ctx =>
    have hset := hsvc rfl
    simp only [Caller.advance] at h
    cases hn : e.New platformInterface options with
    | error err =>
      simp only [hn, Option.some.injEq] at h; subst h
      simp [ReloadPc.holdsLock, ReloadPc.stepsLeft, ReloadPc.usesService]
    | ok outbounds =>
      simp only [hn, Option.some.injEq] at h; subst h
      simp [ReloadPc.holdsLock, ReloadPc.stepsLeft, ReloadPc.usesService, hset]
  | created reloadNum selectedOutbound options ctx newInstance =>
    have hset := hsvc rfl
    simp only [Caller.advance] at h
    cases hn : e.Start newInstance with
    | some err =>
      simp only [hn, Option.some.injEq] at h; subst h
      simp [ReloadPc.holdsLock, ReloadPc.stepsLeft, ReloadPc.usesService]
    | none =>
      simp only [hn, Option.some.injEq] at h; subst h
      simp [ReloadPc.holdsLock, ReloadPc.stepsLeft, ReloadPc.usesService, hset]
  | started reloadNum selectedOutbound options newInstance =>
    simp only [Caller.advance] at h
    cases hs : w.globalBoxService with
    | none => simp [hs] at h
    | some svc =>
      simp only [hs, Option.some.injEq] at h; subst h
      simp [ReloadPc.holdsLock, ReloadPc.stepsLeft, ReloadPc.usesService]

/-- A caller that holds the lock and has not yet executed a `return` can always move. -/
theorem Caller.advance_enabled {O : Type} (e : Engine O) (c : Caller O) (w : World)
    (hhold : c.pc.holdsLock = true) (hne : ∀ err, c.pc ≠ .unlocking err)
    (hsvc : c.pc.usesService = true → w.globalBoxService.isSome = true) :
    ∃ r, c.advance e w = some r := by
  obtain ⟨configContent, preserveSelector, pc⟩ := c
  cases pc with
  | entry => simp [ReloadPc.holdsLock] at hhold
  | returned err => simp [ReloadPc.holdsLock] at hhold
  | unlocking err => exact absurd rfl (hne err)
  | locked =>
    simp only [Caller.advance]
    cases w.globalBoxService with
    | none => exact ⟨_, rfl⟩
    | some svc =>
      cases w.globalPlatformInterface with
      | none => exact ⟨_, rfl⟩
      | some platformInterface =>
        simp only []
        cases e.parseConfig platformInterface configContent <;> exact ⟨_, rfl⟩
  | parsed platformInterface reloadNum selectedOutbound options =>
    have hset := hsvc rfl
    simp only [Caller.advance]
    cases hs : w.globalBoxService with
    | none => simp [hs] at hset
    | some svc => exact ⟨_, rfl⟩
  | retired platformInterface reloadNum selectedOutbound options ctx =>
    simp only [Caller.advance]
    cases e.New platformInterface options <;> exact ⟨_, rfl⟩
  | created reloadNum selectedOutbound options ctx newInstance =>
    simp only [Caller.advance]
    cases e.Start newInstance <;> exact ⟨_, rfl⟩
  | started reloadNum selectedOutbound options newInstance =>
    have hset := hsvc rfl
    simp only [Caller.advance]
    cases hs : w.globalBoxService with
    | none => simp [hs] at hset
    | some svc => exact ⟨_, rfl⟩

/-- The three kinds of step of a process of reload callers. -/
theorem Reloads.caller_step_cases {O : Type} (e : Engine O) (sys sys' : Reloads O) (i : Nat)
    (h : sys.step e i = some sys') :
    ∃ c, sys.callers[i]? = some c ∧
      ((c.pc = .entry ∧ sys.reloadMutex = false ∧
          sys' = { sys with reloadMutex := true,
                            callers := sys.callers.set i { c with pc := .locked } }) ∨
        (∃ err, c.pc = .unlocking err ∧
          sys' = { sys with reloadMutex := false,
                            callers := sys.callers.set i { c with pc := .returned err } }) ∨
        (∃ r, c.advance e sys.w = some r ∧
          sys' = { sys with w := r.2, callers := sys.callers.set i { c with pc := r.1 } })) := by
  unfold Reloads.step at h
  cases hc : sys.callers[i]? with
  | none => simp [hc] at h
  | some c =>
    refine ⟨c, rfl, ?_⟩
    simp only [hc] at h
    cases hpc : c.pc with
    | entry =>
      simp only [hpc] at h
      cases hm : sys.reloadMutex with
      | true => simp [hm] at h
      | false =>
        simp only [hm, Bool.false_eq_true, if_false, Option.some.injEq] at h
        exact Or.inl ⟨rfl, rfl, h.symm⟩
    | unlocking err =>
      simp only [hpc, Option.some.injEq] at h
      exact Or.inr (Or.inl ⟨err, rfl, h.symm⟩)
    | returned err => simp [hpc] at h
    | locked =>
      simp only [hpc] at h
      cases ha : c.advance e sys.w with
      | none => simp [ha] at h
      | some r =>
        simp only [ha, Option.some.injEq] at h
        exact Or.inr (Or.inr ⟨r, rfl, h.symm⟩)
    | parsed p1 p2 p3 p4 =>
      simp only [hpc] at h
      cases ha : c.advance e sys.w with
      | none => simp [ha] at h
      | some r =>
        simp only [ha, Option.some.injEq] at h
        exact Or.inr (Or.inr ⟨r, rfl, h.symm⟩)
    | retired p1 p2 p3 p4 p5 =>
      simp only [hpc] at h
      cases ha : c.advance e sys.w with
      | none => simp [ha] at h
      | some r =>
        simp only [ha, Option.some.injEq] at h
        exact Or.inr (Or.inr ⟨r, rfl, h.symm⟩)
    | created p1 p2 p3 p4 p5 =>
      simp only [hpc] at h
      cases ha : c.advance e sys.w with
      | none => simp [ha] at h
      | some r =>
        simp only [ha, Option.some.injEq] at h
        exact Or.inr (Or.inr ⟨r, rfl, h.symm⟩)
    | started p1 p2 p3 p4 =>
      simp only [hpc] at h
      cases ha : c.advance e sys.w with
      | none => simp [ha] at h
      | some r =>
        simp only [ha, Option.some.injEq] at h
        exact Or.inr (Or.inr ⟨r, rfl, h.symm⟩)

theorem getElem?_set_cases {α : Type} (l : List α) (i j : Nat) (a x : α)
    (h : (l.set i a)[j]? = some x) : (j = i ∧ x = a) ∨ (j ≠ i ∧ l[j]? = some x) := by
  by_cases hij : i = j
  · subst hij
    rw [List.getElem?_set] at h
    simp only [if_true] at h
    split at h
    · simp only [Option.some.injEq] at h
      exact Or.inl ⟨rfl, h.symm⟩
    · simp at h
  · rw [List.getElem?_set_ne hij] at h
    exact Or.inr ⟨fun hji => hij hji.symm, h⟩

theorem ReloadPc.usesService_holdsLock {O : Type} (pc : ReloadPc O)
    (h : pc.usesService = true) : pc.holdsLock = true := by
  cases pc <;> simp_all [ReloadPc.usesService, ReloadPc.holdsLock]

/-- Before any call has started nobody holds the lock. -/
theorem Reloads.init_inv {O : Type} (w : World) (calls : List (String × Bool)) :
    (Reloads.init w calls : Reloads O).Inv := by
  have hno : ∀ (i : Nat) (c : Caller O), (Reloads.init w calls : Reloads O).callers[i]? = some c →
      c.pc = .entry := by
    intro i c hc
    simp only [Reloads.init, List.getElem?_map] at hc
    cases hx : calls[i]? with
    | none => simp [hx] at hc
    | some a =>
      simp only [hx, Option.map_some', Option.some.injEq] at hc
      rw [← hc]
  refine ⟨?_, ?_, ?_⟩
  · intro i j ci cj hi hj hci hcj
    rw [hno i ci hi] at hci
    simp [ReloadPc.holdsLock] at hci
  · constructor
    · intro h; simp [Reloads.init] at h
    · rintro ⟨i, c, hc, hh⟩
      rw [hno i c hc] at hh
      simp [ReloadPc.holdsLock] at hh
  · intro i c hc hu
    rw [hno i c hc] at hu
    simp [ReloadPc.usesService] at hu

/-- Every step of a process of reload callers keeps the invariant. -/
theorem Reloads.caller_step_inv {O : Type} (e : Engine O) (sys sys' : Reloads O) (i : Nat)
    (hI : sys.Inv) (h : sys.step e i = some sys') : sys'.Inv := by
  obtain ⟨c, hc, hcase⟩ := Reloads.caller_step_cases e sys sys' i h
  have hlt : i < sys.callers.length := getElem?_lt_length _ _ _ hc
  rcases hcase with ⟨hpc, hm, rfl⟩ | ⟨err, hpc, rfl⟩ | ⟨r, ha, rfl⟩
  · -- Lock()
    have hnone : ∀ (j : Nat) (cj : Caller O), sys.callers[j]? = some cj →
        cj.pc.holdsLock = true → False := by
      intro j cj hj hh
      have := hI.locked_iff.2 ⟨j, cj, hj, hh⟩
      rw [hm] at this
      exact Bool.noConfusion this
    refine ⟨?_, ?_, ?_⟩
    · intro j k cj ck hj hk hhj hhk
      rcases getElem?_set_cases _ _ _ _ _ hj with ⟨hj1, -⟩ | ⟨-, hj2⟩
      · rcases getElem?_set_cases _ _ _ _ _ hk with ⟨hk1, -⟩ | ⟨-, hk2⟩
        · rw [hj1, hk1]
        · exact absurd (hnone k ck hk2 hhk) id
      · exact absurd (hnone j cj hj2 hhj) id
    · constructor
      · intro _
        exact ⟨i, { c with pc := .locked }, List.getElem?_set_self hlt, rfl⟩
      · intro _; rfl
    · intro j cj hj hu
      rcases getElem?_set_cases _ _ _ _ _ hj with ⟨-, hj1⟩ | ⟨-, hj2⟩
      · rw [hj1] at hu
        simp [ReloadPc.usesService] at hu
      · exact hI.service_set j cj hj2 hu
  · -- deferred Unlock()
    have hhold : c.pc.holdsLock = true := by rw [hpc]; rfl
    have hnone : ∀ (j : Nat) (cj : Caller O),
        (sys.callers.set i { c with pc := .returned err })[j]? = some cj →
        cj.pc.holdsLock = true → False := by
      intro j cj hj hh
      rcases getElem?_set_cases _ _ _ _ _ hj with ⟨-, hj1⟩ | ⟨hne, hj2⟩
      · rw [hj1] at hh
        simp [ReloadPc.holdsLock] at hh
      · exact hne (hI.exclusive j i cj c hj2 hc hh hhold)
    refine ⟨?_, ?_, ?_⟩
    · intro j k cj ck hj hk hhj hhk
      exact absurd (hnone j cj hj hhj) id
    · constructor
      · intro hf; exact Bool.noConfusion hf
      · rintro ⟨j, cj, hj, hh⟩
        exact absurd (hnone j cj hj hh) id
    · intro j cj hj hu
      exact absurd (hnone j cj hj (ReloadPc.usesService_holdsLock _ hu)) id
  · -- a step under the lock
    obtain ⟨hhold, hhold', -, hsvc'⟩ := Caller.advance_spec e c sys.w r ha
      (hI.service_set i c hc)
    have hold : ∀ (j : Nat) (cj : Caller O),
        (sys.callers.set i { c with pc := r.1 })[j]? = some cj →
        cj.pc.holdsLock = true → j = i := by
      intro j cj hj hh
      rcases getElem?_set_cases _ _ _ _ _ hj with ⟨hj1, -⟩ | ⟨-, hj2⟩
      · exact hj1
      · exact hI.exclusive j i cj c hj2 hc hh hhold
    refine ⟨?_, ?_, ?_⟩
    · intro j k cj ck hj hk hhj hhk
      rw [hold j cj hj hhj, hold k ck hk hhk]
    · constructor
      · intro _
        exact ⟨i, { c with pc := r.1 }, List.getElem?_set_self hlt, hhold'⟩
      · intro _
        exact hI.locked_iff.2 ⟨i, c, hc, hhold⟩
    · intro j cj hj hu
      have hji := hold j cj hj (ReloadPc.usesService_holdsLock _ hu)
      subst hji
      rw [List.getElem?_set_self hlt] at hj
      simp only [Option.some.injEq] at hj
      rw [← hj] at hu
      exact hsvc' hu

/-- The invariant holds along every schedule. -/
theorem Reloads.schedule_inv {O : Type} (e : Engine O) (schedule : List Nat) (sys sys' : Reloads O)
    (hI : sys.Inv) (h : sys.run e schedule = some sys') : sys'.Inv := by
  induction schedule generalizing sys with
  | nil =>
    simp only [Reloads.run, Option.some.injEq] at h
    subst h
    exact hI
  | cons i rest ih =>
    simp only [Reloads.run] at h
    cases hs : sys.step e i with
    | none => rw [hs] at h; simp at h
    | some sys1 =>
      rw [hs] at h
      exact ih sys1 (Reloads.caller_step_inv e sys sys1 i hI hs) h

theorem Reloads.step_unlocking {O : Type} (e : Engine O) (sys : Reloads O) (i : Nat)
    (c : Caller O) (err : Option GoError) (hc : sys.callers[i]? = some c)
    (hpc : c.pc = .unlocking err) :
    sys.step e i = some { sys with reloadMutex := false,
                                   callers := sys.callers.set i { c with pc := .returned err } } := by
  simp [Reloads.step, hc, hpc]

theorem Reloads.step_advance {O : Type} (e : Engine O) (sys : Reloads O) (i : Nat)
    (c : Caller O) (r : ReloadPc O × World) (hc : sys.callers[i]? = some c)
    (ha : c.advance e sys.w = some r) :
    sys.step e i = some { sys with w := r.2,
                                   callers := sys.callers.set i { c with pc := r.1 } } := by
  obtain ⟨configContent, preserveSelector, pc⟩ := c
  cases pc with
  | entry => simp [Caller.advance] at ha
  | returned err => simp [Caller.advance] at ha
  | unlocking err => simp [Caller.advance] at ha
  | locked => simp [Reloads.step, hc, ha]
  | parsed p1 p2 p3 p4 => simp [Reloads.step, hc, ha]
  | retired p1 p2 p3 p4 p5 => simp [Reloads.step, hc, ha]
  | created p1 p2 p3 p4 p5 => simp [Reloads.step, hc, ha]
  | started p1 p2 p3 p4 => simp [Reloads.step, hc, ha]

/-- A caller that holds the lock reaches its return by its own steps alone, and the lock is
free when it has returned. -/
theorem Reloads.releases {O : Type} (e : Engine O) (n : Nat) (sys : Reloads O) (i : Nat)
    (c : Caller O) (hI : sys.Inv) (hc : sys.callers[i]? = some c)
    (hhold : c.pc.holdsLock = true) (hn : c.pc.stepsLeft ≤ n) :
    ∃ (k : Nat) (sys' : Reloads O) (err : Option GoError), k ≤ n ∧
      sys.run e (List.replicate k i) = some sys' ∧
      (sys'.callers[i]?).map (fun c' => c'.pc) = some (.returned err) ∧
      sys'.reloadMutex = false := by
  induction n generalizing sys c with
  | zero =>
    have : c.pc.stepsLeft = 0 := Nat.le_zero.1 hn
    cases hpc : c.pc <;> simp_all [ReloadPc.stepsLeft, ReloadPc.holdsLock]
  | succ n ih =>
    have hlt : i < sys.callers.length := getElem?_lt_length _ _ _ hc
    by_cases hu : ∃ err, c.pc = .unlocking err
    · obtain ⟨err, hpc⟩ := hu
      refine ⟨1, { sys with reloadMutex := false,
                            callers := sys.callers.set i { c with pc := .returned err } },
        err, by omega, ?_, ?_, rfl⟩
      · simp [Reloads.run, Reloads.step_unlocking e sys i c err hc hpc]
      · simp [List.getElem?_set_self hlt]
    · have hne : ∀ err, c.pc ≠ .unlocking err := fun err h => hu ⟨err, h⟩
      obtain ⟨r, ha⟩ := Caller.advance_enabled e c sys.w hhold hne (hI.service_set i c hc)
      obtain ⟨-, hhold', hless, -⟩ := Caller.advance_spec e c sys.w r ha
        (hI.service_set i c hc)
      have hs := Reloads.step_advance e sys i c r hc ha
      have hI' := Reloads.caller_step_inv e sys _ i hI hs
      obtain ⟨k, sys', err, hk, hrun, hret, hfree⟩ :=
        ih { sys with w := r.2, callers := sys.callers.set i { c with pc := r.1 } }
          { c with pc := r.1 } hI' (List.getElem?_set_self hlt) hhold' (by simp only; omega)
      refine ⟨k + 1, sys', err, by omega, ?_, hret, hfree⟩
      simp [List.replicate_succ, Reloads.run, hs, hrun]

/-- C4: in every state that any number of concurrent `ReloadConfig` calls can reach, under
every interleaving of their steps, at most one call is between `reloadMutex.Lock()` and the
deferred `reloadMutex.Unlock()`, so the steps that read, close, rebuild and swap the service
in one call never overlap those of another; the mutex is locked exactly while some call is
there; and the call that is there reaches its return by at most six steps of its own on
every path, success or failure, with the mutex free once it has returned. -/
theorem ReloadConfig_mutual_exclusion {O : Type} (e : Engine O) (w : World)
    (calls : List (String × Bool)) (schedule : List Nat) (sys : Reloads O)
    (hrun : (Reloads.init w calls).run e schedule = some sys) :
    (∀ (i j : Nat) (ci cj : Caller O), sys.callers[i]? = some ci → sys.callers[j]? = some cj →
      ci.pc.holdsLock = true → cj.pc.holdsLock = true → i = j) ∧
    (sys.reloadMutex = true ↔
      ∃ (i : Nat) (c : Caller O), sys.callers[i]? = some c ∧ c.pc.holdsLock = true) ∧
    (∀ (i : Nat) (c : Caller O), sys.callers[i]? = some c → c.pc.holdsLock = true →
      ∃ (k : Nat) (sys' : Reloads O) (err : Option GoError), k ≤ 6 ∧
        sys.run e (List.replicate k i) = some sys' ∧
        (sys'.callers[i]?).map (fun c' => c'.pc) = some (.returned err) ∧
        sys'.reloadMutex = false) := by
  have hI := Reloads.schedule_inv e schedule _ sys (Reloads.init_inv w calls) hrun
  refine ⟨hI.exclusive, hI.locked_iff, ?_⟩
  intro i c hc hhold
  apply Reloads.releases e 6 sys i c hI hc hhold
  cases c.pc <;> simp [ReloadPc.stepsLeft]

/-- Witness of C4: two calls on the demo state; the first has taken the lock and parsed its
configuration, the second has not started; the mutex is locked. -/
theorem ReloadConfig_mutual_exclusion_witness :
    ∃ sys : Reloads DemoOptions,
      (Reloads.init demoWorld [("same", true), ("renamed", false)]).run demoEngine [0, 0]
        = some sys ∧
      (sys.reloadMutex = true ↔
        ∃ (i : Nat) (c : Caller DemoOptions), sys.callers[i]? = some c ∧
          c.pc.holdsLock = true) ∧
      sys.step demoEngine 1 = none :=
  ⟨_, rfl, (ReloadConfig_mutual_exclusion demoEngine demoWorld
    [("same", true), ("renamed", false)] [0, 0] _ rfl).2.1, rfl⟩

/-- A single caller, run step by step from `Lock()` to the deferred `Unlock()`, returns what
`ReloadConfig` returns and leaves the state `ReloadConfig` leaves. -/
theorem Reloads.single_caller {O : Type} (e : Engine O) (w : World) (configContent : String)
    (preserveSelector : Bool) :
    ∃ k, k ≤ 7 ∧
      (Reloads.init w [(configContent, preserveSelector)]).run e (List.replicate k 0) =
        some { w := (ReloadConfig e w configContent preserveSelector).2,
               reloadMutex := false,
               callers := [{ configContent := configContent,
                             preserveSelector := preserveSelector,
                             pc := .returned
                               (ReloadConfig e w configContent preserveSelector).1 }] } := by
  cases hs : w.globalBoxService with
  | none =>
    refine ⟨3, by omega, ?_⟩
    simp [Reloads.init, Reloads.run, Reloads.step, Caller.advance, ReloadConfig, hs,
      List.replicate]
  | some svc =>
    cases hp : w.globalPlatformInterface with
    | none =>
      refine ⟨3, by omega, ?_⟩
      simp [Reloads.init, Reloads.run, Reloads.step, Caller.advance, ReloadConfig, hs, hp,
        List.replicate]
    | some platformInterface =>
      cases hc : e.parseConfig platformInterface configContent with
      | error err =>
        refine ⟨3, by omega, ?_⟩
        simp [Reloads.init, Reloads.run, Reloads.step, Caller.advance, ReloadConfig, hs, hp,
          hc, List.replicate]
      | ok options =>
        cases hn : e.New platformInterface options with
        | error err =>
          refine ⟨5, by omega, ?_⟩
          simp [Reloads.init, Reloads.run, Reloads.step, Caller.advance, ReloadConfig, hs, hp,
            hc, hn, List.replicate]
        | ok outbounds =>
          cases hst : e.Start { outbounds := outbounds, started := false, closed := false } with
          | some err =>
            refine ⟨6, by omega, ?_⟩
            simp [Reloads.init, Reloads.run, Reloads.step, Caller.advance, ReloadConfig, hs,
              hp, hc, hn, hst, List.replicate]
          | none =>
            refine ⟨7, by omega, ?_⟩
            simp [Reloads.init, Reloads.run, Reloads.step, Caller.advance, ReloadConfig, hs,
              hp, hc, hn, hst, List.replicate]

/-! ## Selector state accessor: which group is read, which is written -/

theorem readGroup_eq_find (m : OutboundManager) (l : List String) :
    readGroup m l =
      l.find? fun g => match m.Outbound g with
        | some o => o.hasNow
        | none => false := by
  induction l with
  | nil => rfl
  | cons t rest ih =>
    unfold readGroup
    cases h : m.Outbound t with
    | none => simp [List.find?_cons, h, ih]
    | some o =>
      by_cases hn : o.hasNow = true
      · simp [List.find?_cons, h, hn]
      · simp [List.find?_cons, h, hn, ih]

theorem writeGroup_eq_find (m : OutboundManager) (tag : String) (l : List String) :
    writeGroup m tag l =
      l.find? fun g => match m.Outbound g with
        | some o => o.hasSelectOutbound && decide (tag ∈ o.members)
        | none => false := by
  induction l with
  | nil => rfl
  | cons t rest ih =>
    unfold writeGroup
    cases h : m.Outbound t with
    | none => simp [List.find?_cons, h, ih]
    | some o =>
      by_cases hs : (o.hasSelectOutbound && decide (tag ∈ o.members)) = true
      · simp only [hs, if_true, List.find?_cons, h]
      · simp only [hs, List.find?_cons, h, ih]
        simp

theorem readGroup_unregistered (m : OutboundManager) (l : List String)
    (h : ∀ g ∈ l, m.Outbound g = none) : readGroup m l = none := by
  induction l with
  | nil => rfl
  | cons t rest ih =>
    unfold readGroup
    rw [h t (List.mem_cons_self _ _)]
    exact ih fun g hg => h g (List.mem_cons_of_mem _ hg)

theorem writeGroup_unregistered (m : OutboundManager) (tag : String) (l : List String)
    (h : ∀ g ∈ l, m.Outbound g = none) : writeGroup m tag l = none := by
  induction l with
  | nil => rfl
  | cons t rest ih =>
    unfold writeGroup
    rw [h t (List.mem_cons_self _ _)]
    exact ih fun g hg => h g (List.mem_cons_of_mem _ hg)

/-- C11 (counterexample): the read and the write do not resolve to the same group.  With two
selector groups `proxy` (over `node-A`, `node-B`) and `select` (over `node-C`, `node-D`) the
read returns the selection of `proxy`, while writing `node-D` leaves `proxy` as it was and
changes `select`, which is not the first listed name that exists and is a selector; the read
after the write still returns `node-A`.  With an automatic group `proxy` (it has `Now()` and
no `SelectOutbound`) and a selector `select`, the read returns the member of `proxy` and the
write of `node-B` goes to `select`. -/
theorem selector_read_write_groups_differ :
    getSelectedOutboundFromService (some twoGroupService) = "node-A" ∧
    (restoreSelectedOutboundToService (some twoGroupService) "node-D").2 = true ∧
    lookupOutbound (restoreSelectedOutboundToService (some twoGroupService) "node-D").1 "proxy" =
      some (selectorGroup "node-A" ["node-A", "node-B"]) ∧
    lookupOutbound (restoreSelectedOutboundToService (some twoGroupService) "node-D").1 "select" =
      some (selectorGroup "node-D" ["node-C", "node-D"]) ∧
    getSelectedOutboundFromService
      (restoreSelectedOutboundToService (some twoGroupService) "node-D").1 = "node-A" ∧
    getSelectedOutboundFromService (some mixedService) = "node-A" ∧
    (restoreSelectedOutboundToService (some mixedService) "node-B").2 = true ∧
    lookupOutbound (restoreSelectedOutboundToService (some mixedService) "node-B").1 "proxy" =
      some (automaticGroup "node-A" ["node-A", "node-B"]) ∧
    lookupOutbound (restoreSelectedOutboundToService (some mixedService) "node-B").1 "select" =
      some (selectorGroup "node-B" ["node-A", "node-B"]) ∧
    getSelectedOutboundFromService
      (restoreSelectedOutboundToService (some mixedService) "node-B").1 = "node-A" := by
  refine ⟨?_, ?_, ?_, ?_, ?_, ?_, ?_, ?_, ?_, ?_⟩ <;> decide

/-- C11 (amended): on a service with an instance, the read acts on the first name of
`proxy`, `select`, `selector`, `PROXY` that is registered and has `Now()`, and returns that
group's current selection, the empty string when there is none.  The write of a non-empty
name acts on the first listed name that is registered, has `SelectOutbound` and accepts the
name: the name becomes the selection of that group and every other registered object stays
as it was; when there is no such group the write changes nothing.  When no listed name is
registered the read returns the empty string and the write changes nothing.  When the two
resolve to the same group, the read after the write returns the written name. -/
theorem selector_read_write_resolution (svc : BoxService) (box : Box) (tag : String)
    (hi : svc.inst = some box) (ht : tag ≠ "") :
    (readGroup box.outbounds selectorTags =
      selectorTags.find? fun g => match box.outbounds.Outbound g with
        | some o => o.hasNow
        | none => false) ∧
    (writeGroup box.outbounds tag selectorTags =
      selectorTags.find? fun g => match box.outbounds.Outbound g with
        | some o => o.hasSelectOutbound && decide (tag ∈ o.members)
        | none => false) ∧
    (∀ g, readGroup box.outbounds selectorTags = some g →
      ∃ o, box.outbounds.Outbound g = some o ∧
        getSelectedOutboundFromService (some svc) = o.Now) ∧
    (readGroup box.outbounds selectorTags = none →
      getSelectedOutboundFromService (some svc) = "") ∧
    (∀ g, writeGroup box.outbounds tag selectorTags = some g →
      ∃ o, box.outbounds.Outbound g = some o ∧
        restoreSelectedOutboundToService (some svc) tag =
          (some { svc with inst := some { box with outbounds := box.outbounds.put g { o with selected := tag } } }, true) ∧
        lookupOutbound (restoreSelectedOutboundToService (some svc) tag).1 g =
          some { o with selected := tag } ∧
        ∀ t, t ≠ g →
          lookupOutbound (restoreSelectedOutboundToService (some svc) tag).1 t =
            box.outbounds.Outbound t) ∧
    (writeGroup box.outbounds tag selectorTags = none →
      restoreSelectedOutboundToService (some svc) tag = (some svc, false)) ∧
    ((∀ g ∈ selectorTags, box.outbounds.Outbound g = none) →
      getSelectedOutboundFromService (some svc) = "" ∧
      restoreSelectedOutboundToService (some svc) tag = (some svc, false)) ∧
    (∀ g, readGroup box.outbounds selectorTags = some g →
      writeGroup box.outbounds tag selectorTags = some g →
      getSelectedOutboundFromService (restoreSelectedOutboundToService (some svc) tag).1 = tag) := by
  have hread : getSelectedOutboundFromService (some svc) =
      getSelectedLoop box.outbounds selectorTags := by
    simp [getSelectedOutboundFromService, hi]
  have hwrite : restoreSelectedOutboundToService (some svc) tag =
      (some { svc with inst := some { box with outbounds := (restoreSelectedLoop box.outbounds tag selectorTags).1 } },
        (restoreSelectedLoop box.outbounds tag selectorTags).2) := by
    simp [restoreSelectedOutboundToService, hi, ht]
  have hnone : writeGroup box.outbounds tag selectorTags = none →
      restoreSelectedOutboundToService (some svc) tag = (some svc, false) := by
    intro hw
    rw [hwrite, restoreSelectedLoop_eq, hw]
    simp only []
    rw [← hi]
  have hrnone : readGroup box.outbounds selectorTags = none →
      getSelectedOutboundFromService (some svc) = "" := by
    intro hr
    rw [hread, getSelectedLoop_eq, hr]
  refine ⟨readGroup_eq_find _ _, writeGroup_eq_find _ _ _, ?_, hrnone, ?_, hnone, ?_, ?_⟩
  · intro g hr
    obtain ⟨o, ho, _⟩ := readGroup_some _ _ _ hr
    refine ⟨o, ho, ?_⟩
    rw [hread, getSelectedLoop_eq, hr]
    simp only [ho]
  · intro g hw
    obtain ⟨o, ho, _, hm⟩ := writeGroup_some _ _ _ _ hw
    have hsel : (o.SelectOutbound tag).2 = { o with selected := tag } := by
      simp [Outbound.SelectOutbound, hm]
    have hw' : restoreSelectedOutboundToService (some svc) tag =
        (some { svc with inst := some { box with outbounds := box.outbounds.put g { o with selected := tag } } }, true) := by
      rw [hwrite, restoreSelectedLoop_eq, hw]
      simp only [ho, hsel]
    refine ⟨o, ho, hw', ?_, ?_⟩
    · rw [hw']
      simp only [lookupOutbound]
      exact Outbound_put_self _ _ _ _ ho
    · intro t htg
      rw [hw']
      simp only [lookupOutbound]
      exact Outbound_put_ne _ _ _ _ htg
  · intro hall
    exact ⟨hrnone (readGroup_unregistered _ _ hall), hnone (writeGroup_unregistered _ _ _ hall)⟩
  · intro g hr hw
    rw [hwrite]
    simp only [getSelectedOutboundFromService]
    exact getSelectedLoop_restore _ _ _ _ hr hw

/-- The amended statement of C11 on the service whose group `proxy` has `node-A` selected,
writing `node-B`. -/
theorem selector_read_write_resolution_witness :
    demoService.inst = some demoBox ∧ "node-B" ≠ "" ∧
    writeGroup demoBox.outbounds "node-B" selectorTags = some "proxy" ∧
    ∃ o, demoBox.outbounds.Outbound "proxy" = some o ∧
      restoreSelectedOutboundToService (some demoService) "node-B" =
        (some { demoService with inst := some { demoBox with outbounds := demoBox.outbounds.put "proxy" { o with selected := "node-B" } } }, true) ∧
      lookupOutbound (restoreSelectedOutboundToService (some demoService) "node-B").1 "proxy" =
        some { o with selected := "node-B" } ∧
      ∀ t, t ≠ "proxy" →
        lookupOutbound (restoreSelectedOutboundToService (some demoService) "node-B").1 t =
          demoBox.outbounds.Outbound t :=
  ⟨rfl, by decide, by decide,
    (selector_read_write_resolution demoService demoBox "node-B" rfl (by decide)).2.2.2.2.1
      "proxy" (by decide)⟩

/-! ## A call before anything is registered -/

/-- C12 (counterexample): with no service and no platform interface registered, the first
step of a `ReloadConfig` call is `reloadMutex.Lock()`: after that step the mutex is locked,
the call is between `Lock()` and the deferred `Unlock()`, and it has not returned yet; a
second call made meanwhile cannot move, and it moves again once the first call has run its
deferred `Unlock()`. -/
theorem ReloadConfig_unregistered_takes_lock :
    (ClearReloadableService demoWorld).globalBoxService = none ∧
    (ClearReloadableService demoWorld).globalPlatformInterface = none ∧
    ((Reloads.init (ClearReloadableService demoWorld) [("same", false), ("same", false)]).run
        demoEngine [0]).map (fun sys => (sys.reloadMutex, sys.callers.map fun c => c.pc.holdsLock))
      = some (true, [true, false]) ∧
    (((Reloads.init (ClearReloadableService demoWorld) [("same", false), ("same", false)]).run
        demoEngine [0]).bind fun sys => sys.step demoEngine 1).isNone = true ∧
    (((Reloads.init (ClearReloadableService demoWorld) [("same", false), ("same", false)]).run
        demoEngine [0, 0, 0]).bind fun sys => sys.step demoEngine 1).isSome = true := by
  refine ⟨rfl, rfl, ?_, ?_, ?_⟩ <;> decide

/-- C12 (amended): a `ReloadConfig` call made while no service is registered, or while no
platform interface is registered, returns the error `no BoxService available for reload`
(no service) or `no PlatformInterface available for reload` (a service but no platform
interface) and leaves the whole process state as it was: registered service, platform
interface, reload count and contexts.  The call does take the reload lock first: it cannot
move while the lock is held; when the lock is free its first step locks it, and after two
more steps of its own it has returned that error with the state unchanged and the lock free
again. -/
theorem ReloadConfig_unregistered_fails_unchanged {O : Type} (e : Engine O) (w : World)
    (configContent : String) (preserveSelector : Bool)
    (h : w.globalBoxService = none ∨ w.globalPlatformInterface = none) :
    ∃ err : GoError,
      (w.globalBoxService = none → err = E.New "no BoxService available for reload") ∧
      (w.globalBoxService ≠ none → err = E.New "no PlatformInterface available for reload") ∧
      ReloadConfig e w configContent preserveSelector = (some err, w) ∧
      ∀ (sys : Reloads O) (i : Nat) (c : Caller O),
        sys.w = w → sys.callers[i]? = some c → c.pc = .entry →
        (sys.reloadMutex = true → sys.step e i = none) ∧
        (sys.reloadMutex = false →
          sys.step e i =
            some { sys with reloadMutex := true,
                            callers := sys.callers.set i { c with pc := .locked } } ∧
          sys.run e [i, i, i] =
            some { sys with reloadMutex := false,
                            callers := sys.callers.set i { c with pc := .returned (some err) } }) := by
  have key : ∀ (err : GoError),
      (∀ c : Caller O, c.pc = .locked → c.advance e w = some (.unlocking (some err), w)) →
      ∀ (sys : Reloads O) (i : Nat) (c : Caller O),
        sys.w = w → sys.callers[i]? = some c → c.pc = .entry →
        (sys.reloadMutex = true → sys.step e i = none) ∧
        (sys.reloadMutex = false →
          sys.step e i =
            some { sys with reloadMutex := true,
                            callers := sys.callers.set i { c with pc := .locked } } ∧
          sys.run e [i, i, i] =
            some { sys with reloadMutex := false,
                            callers := sys.callers.set i { c with pc := .returned (some err) } }) := by
    intro err hadv sys i c hw hc hpc
    have hlt : i < sys.callers.length := getElem?_lt_length _ _ _ hc
    refine ⟨fun hm => by simp [Reloads.step, hc, hpc, hm], fun hm => ?_⟩
    have h1 : sys.step e i =
        some { sys with reloadMutex := true,
                        callers := sys.callers.set i { c with pc := .locked } } := by
      simp [Reloads.step, hc, hpc, hm]
    refine ⟨h1, ?_⟩
    have ha := hadv { c with pc := .locked } rfl
    have h2 : Reloads.step e
        ⟨sys.w, true, sys.callers.set i ⟨c.configContent, c.preserveSelector, .locked⟩⟩ i =
        some ⟨sys.w, true,
          sys.callers.set i ⟨c.configContent, c.preserveSelector, .unlocking (some err)⟩⟩ := by
      simp [Reloads.step, hlt, hw, ha]
    have h3 : Reloads.step e
        ⟨sys.w, true,
          sys.callers.set i ⟨c.configContent, c.preserveSelector, .unlocking (some err)⟩⟩ i =
        some ⟨sys.w, false,
          sys.callers.set i ⟨c.configContent, c.preserveSelector, .returned (some err)⟩⟩ := by
      simp [Reloads.step, hlt]
    simp only [Reloads.run, h1, h2, h3]
  cases hs : w.globalBoxService with
  | none =>
    refine ⟨E.New "no BoxService available for reload", fun _ => rfl, fun hne => absurd rfl hne,
      by simp [ReloadConfig, hs], key _ ?_⟩
    intro c hpc
    simp [Caller.advance, hpc, hs]
  | some svc =>
    have hp : w.globalPlatformInterface = none := by
      rcases h with h | h
      · rw [hs] at h; cases h
      · exact h
    refine ⟨E.New "no PlatformInterface available for reload", (fun hn => by cases hn),
      fun _ => rfl, by simp [ReloadConfig, hs, hp], key _ ?_⟩
    intro c hpc
    simp [Caller.advance, hpc, hs, hp]

/-- The amended statement of C12 on a process whose registration was cleared. -/
theorem ReloadConfig_unregistered_fails_unchanged_witness :
    ((ClearReloadableService demoWorld).globalBoxService = none ∨
      (ClearReloadableService demoWorld).globalPlatformInterface = none) ∧
    ∃ err : GoError,
      ((ClearReloadableService demoWorld).globalBoxService = none →
        err = E.New "no BoxService available for reload") ∧
      ((ClearReloadableService demoWorld).globalBoxService ≠ none →
        err = E.New "no PlatformInterface available for reload") ∧
      ReloadConfig demoEngine (ClearReloadableService demoWorld) "same" true =
        (some err, ClearReloadableService demoWorld) ∧
      ∀ (sys : Reloads DemoOptions) (i : Nat) (c : Caller DemoOptions),
        sys.w = ClearReloadableService demoWorld → sys.callers[i]? = some c → c.pc = .entry →
        (sys.reloadMutex = true → sys.step demoEngine i = none) ∧
        (sys.reloadMutex = false →
          sys.step demoEngine i =
            some { sys with reloadMutex := true,
                            callers := sys.callers.set i { c with pc := .locked } } ∧
          sys.run demoEngine [i, i, i] =
            some { sys with reloadMutex := false,
                            callers := sys.callers.set i { c with pc := .returned (some err) } }) :=
  ⟨Or.inl rfl,
    ReloadConfig_unregistered_fails_unchanged demoEngine (ClearReloadableService demoWorld)
      "same" true (Or.inl rfl)⟩

end KunBox
